import Mathlib

/-!
Verification development for `custom_profit_and_loss_statement.py`
(app `socha_llc`, report "Custom Profit and Loss Statement").

The report module is glue over an external accounting framework:
`get_period_list`, `get_data`, `get_columns`,
`get_filtered_list_for_consolidated_report`, the database default
`float_precision` and the company default currency are external
collaborators.  They are modelled as *inputs* of the embedded functions.
Everything the module itself computes — `execute`'s assembly of the result
tuple, `get_difference_columns`, `get_difference_data`,
`calculate_percentage_difference`, `check_opening_balance`,
`get_report_summary` and `get_chart_data` — is embedded below, translated
statement by statement from the Python source.

Modelling conventions:
* Python strings are lists of characters (`Str`), Python numbers are `Rat`.
* A report row (a Python dict) is an association list with
  first-occurrence lookup and replace-or-append update, which matches
  dict lookup/assignment; `Row` values (`PyVal`) are numbers, strings,
  booleans or `None`.
* A raised exception is `Option.none` of the embedded function
  (the module lets `IndexError` / `TypeError` / `ValueError` /
  `AttributeError` escape everywhere except inside
  `get_difference_data`, which catches them and stores `None`).
* `float(...)` applied to strings is modelled for plain decimal literals
  (optional sign, digits, optional fractional part); `int(...)` for an
  optional sign followed by digits.  Exponents, infinities, underscores
  and surrounding whitespace are outside the model.
* `round(...)` / frappe's `flt` rounding is modelled as exact
  round-half-to-even on rationals; binary floating point artefacts are
  outside the model.
-/

set_option maxHeartbeats 1600000

namespace SochaPnl

/-- Python strings are modelled as lists of characters. -/
abbrev Str := List Char

/-! String literals appearing in the module. -/

def sDiffWith : Str := "diff_with_".data
def sPercentWith : Str := "percent_with_".data
def sPercentDiffWith : Str := "percent_diff_with_".data
def sAnd : Str := "_and_".data
def sUnderscore : Str := "_".data
def sSpace : Str := " ".data
def sCurrencyT : Str := "Currency".data
def sPercentT : Str := "Percent".data
def sCurrencyOpt : Str := "currency".data
def sMonthly : Str := "Monthly".data
def sYearly : Str := "Yearly".data
def sNoneStr : Str := "None".data
def sDiffWLabel : Str := "Diff W/".data
def sPercentDiffWLabel : Str := "Percent Diff W/".data
def sOpeningBalance : Str := "opening_balance".data
def sTotal : Str := "total".data
def sAccountName : Str := "account_name".data
def sAccount : Str := "account".data
def sWarnIfNegative : Str := "warn_if_negative".data
def sNotClosed : Str := "Previous Financial Year is not closed".data
def sAssets : Str := "Assets".data
def sLiabilities : Str := "Liabilities".data
def sEquityName : Str := "Equity".data
def sIncomeName : Str := "Income".data
def sExpenseName : Str := "Expense".data
def sTotalAsset : Str := "Total Asset".data
def sTotalLiability : Str := "Total Liability".data
def sTotalEquity : Str := "Total Equity".data
def sTotalIncome : Str := "Total Income".data
def sTotalExpense : Str := "Total Expense".data
def sBar : Str := "bar".data
def sLine : Str := "line".data

/-- The ASCII single-quote character used around the unclosed-row account name. -/
def quoteC : Char := Char.ofNat 39

/-- `"'Unclosed Fiscal Years Profit / Loss (Credit)'"` (with the quotes). -/
def sUnclosedName : Str :=
  quoteC :: ( "Unclosed Fiscal Years Profit / Loss (Credit)".data ++ [quoteC])

/-! ## Rows (Python dicts) -/

/-- A value stored in a report row. -/
inductive PyVal where
  | null : PyVal
  | num : Rat → PyVal
  | str : Str → PyVal
  | bool : Bool → PyVal
deriving DecidableEq

/-- A report row: a Python dict with string keys, modelled as an
association list whose lookup takes the first matching key and whose
update replaces in place (or appends a new key at the end), exactly like
dict assignment. -/
abbrev Row := List (Str × PyVal)

/-- `row.get(key)` / `row[key]` presence included: `none` means the key is absent. -/
def rowGet : Row → Str → Option PyVal
  | [], _ => none
  | (k, v) :: rest, key => if k = key then some v else rowGet rest key

/-- `row[key] = v`. -/
def rowSet : Row → Str → PyVal → Row
  | [], key, v => [(key, v)]
  | (k, w) :: rest, key, v =>
      if k = key then (key, v) :: rest else (k, w) :: rowSet rest key v

theorem rowGet_rowSet_self (r : Row) (k : Str) (v : PyVal) :
    rowGet (rowSet r k v) k = some v := by
  induction r with
  | nil => simp [rowSet, rowGet]
  | cons p rest ih =>
      obtain ⟨k₀, v₀⟩ := p
      by_cases h : k₀ = k
      · simp [rowSet, rowGet, h]
      · simp [rowSet, rowGet, h, ih]

theorem rowGet_rowSet_ne (r : Row) (k q : Str) (v : PyVal) (h : q ≠ k) :
    rowGet (rowSet r k v) q = rowGet r q := by
  have h2 : ¬ k = q := fun hh => h hh.symm
  induction r with
  | nil => simp [rowSet, rowGet, h2]
  | cons p rest ih =>
      obtain ⟨k₀, v₀⟩ := p
      by_cases hk : k₀ = k
      · subst hk
        simp [rowSet, rowGet, h2]
      · simp only [rowSet, if_neg hk, rowGet]
        by_cases hq : k₀ = q
        · simp [hq]
        · simp [hq, ih]

/-! ## Numbers -/

/-- Numeric value of a digit string (assumed to be all digits). -/
def digitsToNat (l : List Char) : Nat :=
  l.foldl (fun a c => a * 10 + (c.toNat - 48)) 0

def allDigits (l : List Char) : Bool := l.all Char.isDigit

/-- Fuel-indexed Python `str.split(sep)` (the separator is never empty in
the module).  `fuel` bounds the recursion; `pySplit` supplies enough. -/
def pySplitF (sep : Str) : Nat → Str → List Str
  | 0, s => [s]
  | fuel + 1, s =>
      if sep ≠ [] ∧ sep.isPrefixOf s then
        [] :: pySplitF sep fuel (s.drop sep.length)
      else
        match s with
        | [] => [[]]
        | c :: rest =>
          match pySplitF sep fuel rest with
          | [] => [[c]]
          | p :: ps => (c :: p) :: ps

/-- Python `s.split(sep)` for a non-empty separator. -/
def pySplit (sep s : Str) : List Str := pySplitF sep (s.length + 1) s

/-- `float(s)` restricted to an optional sign, digits and an optional
fractional part (`"12"`, `"+3."`, `"-0.25"`, `".5"`); other inputs are a
`ValueError` (`none`). -/
def pyFloatMag (l : List Char) : Option Rat :=
  match pySplit [Char.ofNat 46] l with
  | [ip] => if ip ≠ [] ∧ allDigits ip then some (digitsToNat ip : Rat) else none
  | [ip, fp] =>
      if (ip ≠ [] ∨ fp ≠ []) ∧ allDigits ip ∧ allDigits fp then
        some ((digitsToNat ip : Rat) + (digitsToNat fp : Rat) / ((10 : Rat) ^ fp.length))
      else none
  | _ => none

def pyFloatQ : Str → Option Rat
  | [] => none
  | c :: rest =>
      if c = Char.ofNat 43 then pyFloatMag rest
      else if c = Char.ofNat 45 then (pyFloatMag rest).map (fun q => -q)
      else pyFloatMag (c :: rest)

/-- `int(s)` restricted to an optional sign followed by digits. -/
def pyIntQ : Str → Option Int
  | [] => none
  | c :: rest =>
      if c = Char.ofNat 43 then
        if rest ≠ [] ∧ allDigits rest then some (digitsToNat rest : Int) else none
      else if c = Char.ofNat 45 then
        if rest ≠ [] ∧ allDigits rest then some (-(digitsToNat rest : Int)) else none
      else
        if (c :: rest) ≠ [] ∧ allDigits (c :: rest) then
          some (digitsToNat (c :: rest) : Int)
        else none

/-- Python `str(i)` for an integer. -/
def intStr (i : Int) : Str := (toString i).data

/-- `float(row.get(key, 0) or 0)`: an absent key defaults to `0`, a falsy
value (`None`, `0`, `""`, `False`) collapses to `0`, numbers pass through,
non-empty strings go through `float(...)`, `True` becomes `1`. -/
def readNum : Option PyVal → Option Rat
  | none => some 0
  | some PyVal.null => some 0
  | some (PyVal.num q) => some q
  | some (PyVal.str s) => if s = [] then some 0 else pyFloatQ s
  | some (PyVal.bool b) => some (if b then 1 else 0)

/-- Exact round-half-to-even of a rational to an integer (the tie rule of
Python's `round`). -/
def roundHalfEven (x : Rat) : Int :=
  if x - (⌊x⌋ : Rat) < (1 : Rat) / 2 then ⌊x⌋
  else if (1 : Rat) / 2 < x - (⌊x⌋ : Rat) then ⌊x⌋ + 1
  else if ⌊x⌋ % 2 = 0 then ⌊x⌋ else ⌊x⌋ + 1

/-- `round(x, p)` on exact rationals. -/
def pyRound (p : Int) (x : Rat) : Rat :=
  ((roundHalfEven (x * (10 : Rat) ^ p) : Int) : Rat) / (10 : Rat) ^ p

/-- frappe's `flt(value, precision)`: convert leniently (`None`, a bad
string and `False` all give `0`, `True` gives `1`) and round. -/
def toFloatOrZero : PyVal → Rat
  | PyVal.null => 0
  | PyVal.num q => q
  | PyVal.str s => (pyFloatQ s).getD 0
  | PyVal.bool b => if b then 1 else 0

def flt (v : PyVal) (p : Int) : Rat := pyRound p (toFloatOrZero v)

/-- `calculate_percentage_difference(old_value, new_value)`
(lines 162–175 of the source). -/
def calculate_percentage_difference (old_value new_value : Rat) : Rat :=
  if old_value = 0 then (if new_value = 0 then 0 else 100)
  else pyRound 2 (((new_value - old_value) / old_value) * 100)

/-! ## Facts about `pySplit`

The non-interference arguments for `get_difference_data` rest on three
facts: every part produced by `split` is a contiguous piece of the input,
no part contains the separator, and the head part is a prefix of the
input. -/

theorem preToIn {α : Type} {l₁ l₂ : List α} (h : l₁ <+: l₂) : l₁ <:+: l₂ := by
  obtain ⟨t, rfl⟩ := h
  exact ⟨[], t, rfl⟩

theorem sufToIn {α : Type} {l₁ l₂ : List α} (h : l₁ <:+ l₂) : l₁ <:+: l₂ := by
  obtain ⟨s, rfl⟩ := h
  exact ⟨s, [], by simp⟩

theorem inTrans {α : Type} {l₁ l₂ l₃ : List α} (h₁ : l₁ <:+: l₂) (h₂ : l₂ <:+: l₃) :
    l₁ <:+: l₃ :=
  h₁.trans h₂

theorem inConsCases {α : Type} {a : α} {l l₂ : List α} (h : l <:+: a :: l₂) :
    l <+: (a :: l₂) ∨ l <:+: l₂ := by
  obtain ⟨s, t, hst⟩ := h
  cases s with
  | nil => exact Or.inl ⟨t, by simpa using hst⟩
  | cons c s2 =>
      right
      rw [List.cons_append, List.cons_append] at hst
      injection hst with h1 h2
      exact ⟨s2, t, h2⟩

theorem pySplitF_succ (sep : Str) (n : Nat) (s : Str) :
    pySplitF sep (n+1) s =
      if sep ≠ [] ∧ sep.isPrefixOf s then
        [] :: pySplitF sep n (s.drop sep.length)
      else
        match s with
        | [] => [[]]
        | c :: rest =>
          match pySplitF sep n rest with
          | [] => [[c]]
          | p :: ps => (c :: p) :: ps := rfl

theorem pySplitF_succ_pos (sep : Str) (n : Nat) (s : Str)
    (h : sep ≠ [] ∧ sep.isPrefixOf s) :
    pySplitF sep (n+1) s = [] :: pySplitF sep n (s.drop sep.length) := by
  rw [pySplitF_succ, if_pos h]

theorem pySplitF_succ_nil (sep : Str) (n : Nat)
    (h : ¬ (sep ≠ [] ∧ sep.isPrefixOf ([] : Str))) :
    pySplitF sep (n+1) [] = [[]] := by
  rw [pySplitF_succ, if_neg h]

theorem pySplitF_succ_cons (sep : Str) (n : Nat) (c : Char) (rest : Str)
    (h : ¬ (sep ≠ [] ∧ sep.isPrefixOf (c :: rest))) (q : Str) (qs : List Str)
    (hr : pySplitF sep n rest = q :: qs) :
    pySplitF sep (n+1) (c :: rest) = (c :: q) :: qs := by
  have h1 : pySplitF sep (n+1) (c :: rest) =
      match pySplitF sep n rest with
      | [] => [[c]]
      | p :: ps => (c :: p) :: ps := by
    rw [pySplitF_succ, if_neg h]
  rw [h1, hr]

theorem pySplitF_ne_nil (sep : Str) : ∀ fuel s, pySplitF sep fuel s ≠ [] := by
  intro fuel
  induction fuel with
  | zero => intro s; simp [pySplitF]
  | succ n ih =>
      intro s
      by_cases hc : sep ≠ [] ∧ sep.isPrefixOf s
      · rw [pySplitF_succ_pos sep n s hc]; simp
      · cases s with
        | nil => rw [pySplitF_succ_nil sep n hc]; simp
        | cons c rest =>
            cases hr : pySplitF sep n rest with
            | nil => exact absurd hr (ih rest)
            | cons q qs =>
                rw [pySplitF_succ_cons sep n c rest hc q qs hr]
                simp

theorem pySplitF_head_pre (sep : Str) :
    ∀ fuel s p ps, s.length < fuel → pySplitF sep fuel s = p :: ps → p <+: s := by
  intro fuel
  induction fuel with
  | zero => intro s p ps h _; omega
  | succ n ih =>
      intro s p ps hlen heq
      by_cases hc : sep ≠ [] ∧ sep.isPrefixOf s
      · rw [pySplitF_succ_pos sep n s hc] at heq
        injection heq with h1 h2
        subst h1
        exact List.nil_prefix
      · cases s with
        | nil =>
            rw [pySplitF_succ_nil sep n hc] at heq
            injection heq with h1 h2
            subst h1
            exact List.nil_prefix
        | cons c rest =>
            cases hr : pySplitF sep n rest with
            | nil => exact absurd hr (pySplitF_ne_nil sep n rest)
            | cons q qs =>
                rw [pySplitF_succ_cons sep n c rest hc q qs hr] at heq
                injection heq with h1 h2
                subst h1
                have hlen2 : rest.length < n := by
                  simp only [List.length_cons] at hlen; omega
                obtain ⟨t, rfl⟩ := ih rest q qs hlen2 hr
                exact ⟨t, rfl⟩

theorem pySplitF_mem_sub (sep : Str) :
    ∀ fuel s p, s.length < fuel → p ∈ pySplitF sep fuel s → p <:+: s := by
  intro fuel
  induction fuel with
  | zero => intro s p h _; omega
  | succ n ih =>
      intro s p hlen hmem
      by_cases hc : sep ≠ [] ∧ sep.isPrefixOf s
      · rw [pySplitF_succ_pos sep n s hc] at hmem
        rcases List.mem_cons.mp hmem with h | h
        · subst h
          exact ⟨[], s, by simp⟩
        · have hd : sep.length ≤ s.length :=
            (List.isPrefixOf_iff_prefix.mp hc.2).length_le
          have hpos : 0 < sep.length := List.length_pos.mpr hc.1
          have h1 : (s.drop sep.length).length < n := by
            rw [List.length_drop]; omega
          exact inTrans (ih _ p h1 h) (sufToIn (List.drop_suffix _ _))
      · cases s with
        | nil =>
            rw [pySplitF_succ_nil sep n hc] at hmem
            simp only [List.mem_singleton] at hmem
            subst hmem
            exact ⟨[], [], rfl⟩
        | cons c rest =>
            cases hr : pySplitF sep n rest with
            | nil => exact absurd hr (pySplitF_ne_nil sep n rest)
            | cons q qs =>
                rw [pySplitF_succ_cons sep n c rest hc q qs hr] at hmem
                have hlen2 : rest.length < n := by
                  simp only [List.length_cons] at hlen; omega
                rcases List.mem_cons.mp hmem with h | h
                · subst h
                  obtain ⟨t, rfl⟩ := pySplitF_head_pre sep n rest q qs hlen2 hr
                  exact preToIn ⟨t, rfl⟩
                · have hp : p ∈ pySplitF sep n rest := by
                    rw [hr]; exact List.mem_cons_of_mem _ h
                  obtain ⟨u, v, huv⟩ := ih rest p hlen2 hp
                  exact ⟨c :: u, v, by rw [← huv]; rfl⟩

theorem pySplitF_not_contains (sep : Str) (hsep : sep ≠ []) :
    ∀ fuel s p, s.length < fuel → p ∈ pySplitF sep fuel s → ¬ sep <:+: p := by
  intro fuel
  induction fuel with
  | zero => intro s p h _ _; omega
  | succ n ih =>
      intro s p hlen hmem hinf
      by_cases hc : sep ≠ [] ∧ sep.isPrefixOf s
      · rw [pySplitF_succ_pos sep n s hc] at hmem
        rcases List.mem_cons.mp hmem with h | h
        · subst h
          obtain ⟨u, v, huv⟩ := hinf
          simp only [List.append_eq_nil] at huv
          exact hsep huv.1.2
        · have hd : sep.length ≤ s.length :=
            (List.isPrefixOf_iff_prefix.mp hc.2).length_le
          have hpos : 0 < sep.length := List.length_pos.mpr hc.1
          have h1 : (s.drop sep.length).length < n := by
            rw [List.length_drop]; omega
          exact ih _ p h1 h hinf
      · have hnp : ¬ sep.isPrefixOf s := fun hp => hc ⟨hsep, hp⟩
        cases s with
        | nil =>
            rw [pySplitF_succ_nil sep n hc] at hmem
            simp only [List.mem_singleton] at hmem
            subst hmem
            obtain ⟨u, v, huv⟩ := hinf
            simp only [List.append_eq_nil] at huv
            exact hsep huv.1.2
        | cons c rest =>
            cases hr : pySplitF sep n rest with
            | nil => exact absurd hr (pySplitF_ne_nil sep n rest)
            | cons q qs =>
                rw [pySplitF_succ_cons sep n c rest hc q qs hr] at hmem
                have hlen2 : rest.length < n := by
                  simp only [List.length_cons] at hlen; omega
                rcases List.mem_cons.mp hmem with h | h
                · subst h
                  rcases inConsCases hinf with hpre | hres
                  · have hq : q <+: rest := pySplitF_head_pre sep n rest q qs hlen2 hr
                    have hcq : (c :: q) <+: (c :: rest) := by
                      obtain ⟨t, rfl⟩ := hq
                      exact ⟨t, rfl⟩
                    exact hnp (List.isPrefixOf_iff_prefix.mpr (hpre.trans hcq))
                  · have hqmem : q ∈ pySplitF sep n rest := by
                      rw [hr]; exact List.mem_cons_self _ _
                    exact ih rest q hlen2 hqmem hres
                · have hp : p ∈ pySplitF sep n rest := by
                    rw [hr]; exact List.mem_cons_of_mem _ h
                  exact ih rest p hlen2 hp hinf

theorem pySplit_ne_nil (sep s : Str) : pySplit sep s ≠ [] :=
  pySplitF_ne_nil sep _ s

theorem pySplit_mem_sub {sep s p : Str} (h : p ∈ pySplit sep s) : p <:+: s :=
  pySplitF_mem_sub sep _ s p (Nat.lt_succ_self _) h

theorem pySplit_not_contains {sep s p : Str} (hsep : sep ≠ []) (h : p ∈ pySplit sep s) :
    ¬ sep <:+: p :=
  pySplitF_not_contains sep hsep _ s p (Nat.lt_succ_self _) h

/-! ## Columns, filters and external inputs -/

/-- A report column: the dict keys the module reads or writes
(`fieldname`, `label`, `fieldtype`, `options`, `width`); `none` is an
absent key (`dict.get` returns `None`). -/
structure Column where
  fieldname : Option Str
  label : Option Str
  fieldtype : Option Str
  options : Option Str
  width : Option Nat
deriving DecidableEq

/-- The filter fields the embedded code inspects.  `accumulated_values`
and `accumulated_in_group_company` stand for the truthiness of the
corresponding filter entries. -/
structure Filters where
  accumulated_values : Bool
  accumulated_in_group_company : Bool
  presentation_currency : Option Str
  show_difference : Option Str
deriving DecidableEq

/-- Database-backed defaults read by the module:
`cint(frappe.db.get_default("float_precision"))` (`0` when unset) and the
company's `default_currency`. -/
structure Env where
  float_precision : Int
  default_currency : Str
deriving DecidableEq

/-- One entry of the framework's period list; the module only reads
`period.key` (it indexes `period_list[0]` once, which is modelled by the
emptiness check in `execute`). -/
structure Period where
  key : Str
deriving DecidableEq

/-- `x or default` for the presentation-currency string (`None` and `""`
are falsy). -/
def pyStrOr (a : Option Str) (b : Str) : Str :=
  match a with
  | some s => if s = [] then b else s
  | none => b

/-- `category or []` — the per-category row lists handed to `execute` may
be `None`. -/
def orEmpty (l : Option (List Row)) : List Row := l.getD []

/-- Truthiness of a possibly-`None` list. -/
def truthyL (l : Option (List Row)) : Bool :=
  match l with
  | none => false
  | some x => !x.isEmpty

/-- Python `l[-2]` on a list of rows: `IndexError` (`none`) when the list
has fewer than two elements. -/
def pyIdxNeg2 (l : List Row) : Option Row :=
  if 2 ≤ l.length then l.get? (l.length - 2) else none

/-! ## `get_difference_data` (lines 122–159) -/

/-- First loop of `get_difference_data`: fieldnames that contain
`"diff_with_"` (a falsy — absent or empty — fieldname is skipped). -/
def diff_w_columns (columns : List Column) : List Str :=
  columns.filterMap fun c =>
    c.fieldname.bind fun f =>
      if f = [] then none
      else if sDiffWith <:+: f then some f
      else none

/-- Fieldnames that contain `"percent_with_"` but not `"diff_with_"`
(the `elif` branch). -/
def percent_diff_columns (columns : List Column) : List Str :=
  columns.filterMap fun c =>
    c.fieldname.bind fun f =>
      if f = [] then none
      else if sDiffWith <:+: f then none
      else if sPercentWith <:+: f then some f
      else none

/-- `col.split(sep)[1].split("_and_")` with its first two entries:
`none` models the caught `IndexError`. -/
def parseAfter (sep f : Str) : Option (Str × Str) :=
  match (pySplit sep f).get? 1 with
  | none => none
  | some seg =>
      let months := pySplit sAnd seg
      match months.get? 0, months.get? 1 with
      | some a, some b => some (a, b)
      | _, _ => none

/-- The value the difference loop stores at a difference column: a caught
`IndexError` / `ValueError` / `TypeError` stores `None`. -/
def diffVal (r : Row) (f : Str) : PyVal :=
  match parseAfter sDiffWith f with
  | none => PyVal.null
  | some (a, b) =>
      match readNum (rowGet r a), readNum (rowGet r b) with
      | some va, some vb => PyVal.num (vb - va)
      | _, _ => PyVal.null

/-- The value the percentage loop stores at a percentage column. -/
def percentVal (r : Row) (f : Str) : PyVal :=
  match parseAfter sPercentWith f with
  | none => PyVal.null
  | some (a, b) =>
      match readNum (rowGet r a), readNum (rowGet r b) with
      | some va, some vb => PyVal.num (calculate_percentage_difference va vb)
      | _, _ => PyVal.null

/-- The combined effect of both loops on a single row (each row is
mutated independently; the difference loop over all rows runs before the
percentage loop). -/
def transformRow (columns : List Column) (r : Row) : Row :=
  (percent_diff_columns columns).foldl (fun r' g => rowSet r' g (percentVal r' g))
    ((diff_w_columns columns).foldl (fun r' g => rowSet r' g (diffVal r' g)) r)

/-- `get_difference_data(columns, data)`. -/
def get_difference_data (columns : List Column) (data : List Row) : List Row :=
  (data.map fun r =>
      (diff_w_columns columns).foldl (fun r' g => rowSet r' g (diffVal r' g)) r).map
    fun r => (percent_diff_columns columns).foldl (fun r' g => rowSet r' g (percentVal r' g)) r

theorem get_difference_data_eq_map (columns : List Column) (data : List Row) :
    get_difference_data columns data = data.map (transformRow columns) := by
  simp [get_difference_data, transformRow, List.map_map]

/-! ## Non-interference of the two update loops

Difference columns all contain `"diff_with_"`; the keys they read are
pieces of `split` output and therefore never contain the separator, so
the loops never read a key they (or the other loop) write. -/

theorem sDiffWith_ne_nil : sDiffWith ≠ [] := by decide
theorem sPercentWith_ne_nil : sPercentWith ≠ [] := by decide

theorem mem_diff_w_columns {columns : List Column} {f : Str}
    (h : f ∈ diff_w_columns columns) : f ≠ [] ∧ sDiffWith <:+: f := by
  obtain ⟨c, hc, hf⟩ := List.mem_filterMap.mp h
  rw [Option.bind_eq_some] at hf
  obtain ⟨g, hcf, hf⟩ := hf
  by_cases hg : g = []
  · rw [if_pos hg] at hf; exact absurd hf (by simp)
  · rw [if_neg hg] at hf
    by_cases hd : sDiffWith <:+: g
    · rw [if_pos hd] at hf
      injection hf with hgf
      subst hgf
      exact ⟨hg, hd⟩
    · rw [if_neg hd] at hf; exact absurd hf (by simp)

theorem mem_percent_diff_columns {columns : List Column} {f : Str}
    (h : f ∈ percent_diff_columns columns) :
    f ≠ [] ∧ ¬ sDiffWith <:+: f ∧ sPercentWith <:+: f := by
  obtain ⟨c, hc, hf⟩ := List.mem_filterMap.mp h
  rw [Option.bind_eq_some] at hf
  obtain ⟨g, hcf, hf⟩ := hf
  by_cases hg : g = []
  · rw [if_pos hg] at hf; exact absurd hf (by simp)
  · rw [if_neg hg] at hf
    by_cases hd : sDiffWith <:+: g
    · rw [if_pos hd] at hf; exact absurd hf (by simp)
    · rw [if_neg hd] at hf
      by_cases hp : sPercentWith <:+: g
      · rw [if_pos hp] at hf
        injection hf with hgf
        subst hgf
        exact ⟨hg, hd, hp⟩
      · rw [if_neg hp] at hf; exact absurd hf (by simp)

theorem not_mem_percent_of_d {columns : List Column} {f : Str}
    (hd : sDiffWith <:+: f) : f ∉ percent_diff_columns columns := fun hmem =>
  (mem_percent_diff_columns hmem).2.1 hd

theorem parseAfter_keys {sep f a b : Str} (hsep : sep ≠ [])
    (hp : parseAfter sep f = some (a, b)) :
    (¬ sep <:+: a ∧ ¬ sep <:+: b) ∧ (a <:+: f ∧ b <:+: f) := by
  unfold parseAfter at hp
  cases hseg : (pySplit sep f).get? 1 with
  | none => rw [hseg] at hp; exact absurd hp (by simp)
  | some seg =>
      rw [hseg] at hp
      dsimp only at hp
      cases ha : (pySplit sAnd seg).get? 0 with
      | none => rw [ha] at hp; exact absurd hp (by simp)
      | some a0 =>
          cases hb : (pySplit sAnd seg).get? 1 with
          | none => rw [ha, hb] at hp; exact absurd hp (by simp)
          | some b0 =>
              rw [ha, hb] at hp
              dsimp only at hp
              injection hp with hab
              injection hab with ha1 hb1
              have hsegmem : seg ∈ pySplit sep f := List.get?_mem hseg
              have hamem : a ∈ pySplit sAnd seg := ha1 ▸ List.get?_mem ha
              have hbmem : b ∈ pySplit sAnd seg := hb1 ▸ List.get?_mem hb
              have hsegfree : ¬ sep <:+: seg := pySplit_not_contains hsep hsegmem
              have hasub : a <:+: seg := pySplit_mem_sub hamem
              have hbsub : b <:+: seg := pySplit_mem_sub hbmem
              have hsegsub : seg <:+: f := pySplit_mem_sub hsegmem
              exact ⟨⟨fun hin => hsegfree (inTrans hin hasub),
                      fun hin => hsegfree (inTrans hin hbsub)⟩,
                     inTrans hasub hsegsub, inTrans hbsub hsegsub⟩

/-- `diffVal` only reads keys that do not contain `"diff_with_"`. -/
theorem diffVal_congr {r₁ r₂ : Row} (f : Str)
    (h : ∀ k, ¬ sDiffWith <:+: k → rowGet r₁ k = rowGet r₂ k) :
    diffVal r₁ f = diffVal r₂ f := by
  unfold diffVal
  cases hp : parseAfter sDiffWith f with
  | none => rfl
  | some ab =>
      obtain ⟨a, b⟩ := ab
      obtain ⟨⟨hna, hnb⟩, -⟩ := parseAfter_keys sDiffWith_ne_nil hp
      dsimp only
      rw [h a hna, h b hnb]

/-- `percentVal` only reads keys that do not contain `"percent_with_"`. -/
theorem percentVal_congr {r₁ r₂ : Row} (f : Str)
    (h : ∀ k, ¬ sPercentWith <:+: k → rowGet r₁ k = rowGet r₂ k) :
    percentVal r₁ f = percentVal r₂ f := by
  unfold percentVal
  cases hp : parseAfter sPercentWith f with
  | none => rfl
  | some ab =>
      obtain ⟨a, b⟩ := ab
      obtain ⟨⟨hna, hnb⟩, -⟩ := parseAfter_keys sPercentWith_ne_nil hp
      dsimp only
      rw [h a hna, h b hnb]

/-- For a percentage column (whose fieldname does not contain
`"diff_with_"`), `percentVal` only reads keys free of `"diff_with_"`. -/
theorem percentVal_congr_outside {r₁ r₂ : Row} {f : Str}
    (hf : ¬ sDiffWith <:+: f)
    (h : ∀ k, ¬ sDiffWith <:+: k → rowGet r₁ k = rowGet r₂ k) :
    percentVal r₁ f = percentVal r₂ f := by
  unfold percentVal
  cases hp : parseAfter sPercentWith f with
  | none => rfl
  | some ab =>
      obtain ⟨a, b⟩ := ab
      obtain ⟨-, hasub, hbsub⟩ := parseAfter_keys sPercentWith_ne_nil hp
      dsimp only
      rw [h a (fun hin => hf (inTrans hin hasub)),
          h b (fun hin => hf (inTrans hin hbsub))]

/-- A fold of in-place writes leaves every unwritten key unchanged. -/
theorem foldWrite_frame (V : Row → Str → PyVal) :
    ∀ (cols : List Str) (r : Row) (k : Str), k ∉ cols →
      rowGet (cols.foldl (fun r' g => rowSet r' g (V r' g)) r) k = rowGet r k := by
  intro cols
  induction cols with
  | nil => intro r k _; rfl
  | cons c cs ih =>
      intro r k hk
      rw [List.foldl_cons]
      rw [ih _ k (fun hm => hk (List.mem_cons_of_mem _ hm))]
      exact rowGet_rowSet_ne _ _ _ _
        (fun he => hk (by rw [he]; exact List.mem_cons_self _ _))

/-- After the fold, a written key holds the value computed from the rows
as they were before the fold, provided every written key contains `sep`
and `V` only reads `sep`-free keys. -/
theorem foldWrite_get (V : Row → Str → PyVal) (sep : Str)
    (HV : ∀ (r₁ r₂ : Row) (g : Str),
      (∀ k, ¬ sep <:+: k → rowGet r₁ k = rowGet r₂ k) → V r₁ g = V r₂ g)
    (r₀ : Row) (f : Str) :
    ∀ (cols : List Str), (∀ g ∈ cols, sep <:+: g) → f ∈ cols →
      ∀ (r : Row), (∀ k, ¬ sep <:+: k → rowGet r k = rowGet r₀ k) →
      rowGet (cols.foldl (fun r' g => rowSet r' g (V r' g)) r) f = some (V r₀ f) := by
  intro cols
  induction cols with
  | nil => intro _ hf _ _; cases hf
  | cons c cs ih =>
      intro Hcols hf r Hagree
      rw [List.foldl_cons]
      have hc : sep <:+: c := Hcols c (List.mem_cons_self _ _)
      have Hagree2 : ∀ k, ¬ sep <:+: k →
          rowGet (rowSet r c (V r c)) k = rowGet r₀ k := by
        intro k hk
        rw [rowGet_rowSet_ne _ _ _ _ (fun he => hk (by rw [he]; exact hc))]
        exact Hagree k hk
      by_cases hfc : f ∈ cs
      · exact ih (fun g hg => Hcols g (List.mem_cons_of_mem _ hg)) hfc _ Hagree2
      · have hfe : f = c := by
          rcases List.mem_cons.mp hf with h | h
          · exact h
          · exact absurd h hfc
        subst hfe
        rw [foldWrite_frame V cs _ f hfc, rowGet_rowSet_self]
        exact congrArg some (HV r r₀ f Hagree)

/-- Looking up a difference column in the fully transformed row. -/
theorem transformRow_diff_lookup {columns : List Column} {f : Str}
    (hf : f ∈ diff_w_columns columns) (r : Row) :
    rowGet (transformRow columns r) f = some (diffVal r f) := by
  obtain ⟨-, hdf⟩ := mem_diff_w_columns hf
  unfold transformRow
  rw [foldWrite_frame percentVal _ _ f (not_mem_percent_of_d hdf)]
  exact foldWrite_get diffVal sDiffWith (fun r₁ r₂ g h => diffVal_congr g h) r f
    (diff_w_columns columns) (fun g hg => (mem_diff_w_columns hg).2) hf r
    (fun _ _ => rfl)

/-- Looking up a percentage column in the fully transformed row: the
difference loop ran first but never touched the keys the percentage
computation reads. -/
theorem transformRow_percent_lookup {columns : List Column} {f : Str}
    (hf : f ∈ percent_diff_columns columns) (r : Row) :
    rowGet (transformRow columns r) f = some (percentVal r f) := by
  obtain ⟨-, hnd, -⟩ := mem_percent_diff_columns hf
  unfold transformRow
  rw [foldWrite_get percentVal sPercentWith (fun r₁ r₂ g h => percentVal_congr g h)
    ((diff_w_columns columns).foldl (fun r' g => rowSet r' g (diffVal r' g)) r) f
    (percent_diff_columns columns)
    (fun g hg => (mem_percent_diff_columns hg).2.2) hf
    ((diff_w_columns columns).foldl (fun r' g => rowSet r' g (diffVal r' g)) r)
    (fun _ _ => rfl)]
  refine congrArg some (percentVal_congr_outside hnd ?_)
  intro k hk
  exact foldWrite_frame diffVal _ r k
    (fun hm => hk ((mem_diff_w_columns hm).2))

/-- Keys that are not difference or percentage columns are untouched. -/
theorem transformRow_frame {columns : List Column} {k : Str}
    (h1 : k ∉ diff_w_columns columns) (h2 : k ∉ percent_diff_columns columns)
    (r : Row) : rowGet (transformRow columns r) k = rowGet r k := by
  unfold transformRow
  rw [foldWrite_frame percentVal _ _ k h2]
  exact foldWrite_frame diffVal _ r k h1

/-! ## `get_difference_columns` (lines 179–242) -/

/-- `old_value` starts as the empty dict `{}`. -/
def emptyColumn : Column := ⟨none, none, none, none, none⟩

/-- How an f-string renders a possibly missing (`None`) value. -/
def fmtOpt : Option Str → Str
  | none => sNoneStr
  | some s => s

/-- The two columns appended by the `Monthly` branch (lines 190–202). -/
def monthlyPair (old_value row : Column) : List Column :=
  [ ⟨some (sDiffWith ++ fmtOpt old_value.fieldname ++ sAnd ++ fmtOpt row.fieldname),
     some (sDiffWLabel ++ fmtOpt old_value.label),
     some sCurrencyT, some sCurrencyOpt, some 150⟩,
    ⟨some (sPercentWith ++ fmtOpt old_value.fieldname ++ sAnd ++ fmtOpt row.fieldname),
     some (sPercentDiffWLabel ++ fmtOpt old_value.label),
     some sPercentT, none, some 150⟩ ]

/-- The two columns appended by the `Yearly` branch (lines 219–231). -/
def yearlyPair (monthStr monthName f : Str) : List Column :=
  [ ⟨some (sDiffWith ++ monthStr ++ sAnd ++ f), some (sDiffWLabel ++ monthName),
     some sCurrencyT, some sCurrencyOpt, some 150⟩,
    ⟨some (sPercentDiffWith ++ monthName ++ sAnd ++ f),
     some (sPercentDiffWLabel ++ monthName),
     some sPercentT, none, some 150⟩ ]

/-- One iteration of the column loop: the extra columns appended after
`row` and the updated `flag` / `old_value`.  `none` models an uncaught
`AttributeError` (`.split` on `None`), `ValueError` (`int(...)`) or
`IndexError` (`month_name[1]`); the Yearly `continue` (fieldname without
an underscore) skips the `flag` / `old_value` updates. -/
def gdcStep (filters : Filters) (flag : Bool) (old_value row : Column) :
    Option (List Column × Bool × Column) :=
  let flag2 := flag || decide (row.fieldtype = some sCurrencyT)
  if flag = true ∧ row.fieldtype = some sCurrencyT then
    let monthly : List Column :=
      if filters.show_difference = some sMonthly then monthlyPair old_value row else []
    if filters.show_difference = some sYearly then
      match row.fieldname with
      | none => none
      | some f =>
          let monthParts := pySplit sUnderscore f
          if monthParts.length < 2 then
            some (monthly, flag, old_value)
          else
            match (monthParts.get? 1).bind pyIntQ with
            | none => none
            | some y =>
                match row.label with
                | none => none
                | some lab =>
                    let nameParts := pySplit sSpace lab
                    match (nameParts.get? 1).bind pyIntQ with
                    | none => none
                    | some y2 =>
                        some (monthly ++
                          yearlyPair (monthParts.headI ++ sUnderscore ++ intStr (y - 1))
                            (nameParts.headI ++ sSpace ++ intStr (y2 - 1)) f,
                          flag2, row)
    else some (monthly, flag2, row)
  else some ([], flag2, row)

/-- The column loop itself. -/
def gdcGo (filters : Filters) : Bool → Column → List Column → Option (List Column)
  | _, _, [] => some []
  | flag, old_value, row :: rest =>
      match gdcStep filters flag old_value row with
      | none => none
      | some (extra, flag2, old2) =>
          (gdcGo filters flag2 old2 rest).map fun tail => row :: (extra ++ tail)

/-- `get_difference_columns(columns, filters)`. -/
def get_difference_columns (columns : List Column) (filters : Filters) :
    Option (List Column) :=
  gdcGo filters false emptyColumn columns

theorem gdcGo_cons (filters : Filters) (flag : Bool) (old_value row : Column)
    (rest : List Column) :
    gdcGo filters flag old_value (row :: rest) =
      match gdcStep filters flag old_value row with
      | none => none
      | some (extra, flag2, old2) =>
          (gdcGo filters flag2 old2 rest).map fun tail => row :: (extra ++ tail) := rfl

theorem gdcStep_monthly (filters : Filters) (hm : filters.show_difference = some sMonthly)
    (flag : Bool) (old_value row : Column) :
    gdcStep filters flag old_value row =
      some ((if flag = true ∧ row.fieldtype = some sCurrencyT
             then monthlyPair old_value row else []),
            flag || decide (row.fieldtype = some sCurrencyT), row) := by
  have hneq : ¬ ((some sMonthly : Option Str) = some sYearly) := by decide
  by_cases hfc : flag = true ∧ row.fieldtype = some sCurrencyT
  · simp only [gdcStep, hm, if_pos hfc, if_neg hneq]
    simp
  · simp only [gdcStep, hm, if_neg hfc]

/-- Specification-side reconstruction for claim C4, following its wording:
walking the column list, every column is kept in order; immediately after
a `Currency` column `c` that is preceded anywhere earlier in the list by
another `Currency` column (`seenCurrency`), the two derived columns are
inserted, built from the immediately preceding column `prev` and from `c`.
The claim fixes the fieldnames and fieldtypes of the inserted pair; their
label, options and width are mirrored from the code, which the claim
leaves unspecified.  (`prev = none` with `seenCurrency = true` cannot
arise from the start state; the branch returns `[]` there.) -/
def c4Spec : Option Column → Bool → List Column → List Column
  | _, _, [] => []
  | prev, seenCurrency, c :: cs =>
      c :: ((if seenCurrency = true ∧ c.fieldtype = some sCurrencyT then
               match prev with
               | some p =>
                   [ ⟨some (sDiffWith ++ fmtOpt p.fieldname ++ sAnd ++ fmtOpt c.fieldname),
                      some (sDiffWLabel ++ fmtOpt p.label),
                      some sCurrencyT, some sCurrencyOpt, some 150⟩,
                     ⟨some (sPercentWith ++ fmtOpt p.fieldname ++ sAnd ++ fmtOpt c.fieldname),
                      some (sPercentDiffWLabel ++ fmtOpt p.label),
                      some sPercentT, none, some 150⟩ ]
               | none => []
             else [])
        ++ c4Spec (some c) (seenCurrency || decide (c.fieldtype = some sCurrencyT)) cs)

theorem c4Spec_cons (prev : Option Column) (seenCurrency : Bool) (c : Column)
    (cs : List Column) :
    c4Spec prev seenCurrency (c :: cs) =
      c :: ((if seenCurrency = true ∧ c.fieldtype = some sCurrencyT then
               match prev with
               | some p =>
                   [ ⟨some (sDiffWith ++ fmtOpt p.fieldname ++ sAnd ++ fmtOpt c.fieldname),
                      some (sDiffWLabel ++ fmtOpt p.label),
                      some sCurrencyT, some sCurrencyOpt, some 150⟩,
                     ⟨some (sPercentWith ++ fmtOpt p.fieldname ++ sAnd ++ fmtOpt c.fieldname),
                      some (sPercentDiffWLabel ++ fmtOpt p.label),
                      some sPercentT, none, some 150⟩ ]
               | none => []
             else [])
        ++ c4Spec (some c) (seenCurrency || decide (c.fieldtype = some sCurrencyT)) cs) := rfl

theorem gdcGo_monthly (filters : Filters) (hm : filters.show_difference = some sMonthly) :
    ∀ (cols : List Column) (flag : Bool) (old_value : Column) (prev : Option Column),
      (flag = true → prev = some old_value) →
      gdcGo filters flag old_value cols = some (c4Spec prev flag cols) := by
  intro cols
  induction cols with
  | nil => intro flag old prev _; rfl
  | cons c cs ih =>
      intro flag old prev hprev
      rw [gdcGo_cons, gdcStep_monthly filters hm]
      dsimp only
      rw [ih (flag || decide (c.fieldtype = some sCurrencyT)) c (some c) (fun _ => rfl)]
      rw [c4Spec_cons]
      dsimp only [Option.map]
      by_cases hfc : flag = true ∧ c.fieldtype = some sCurrencyT
      · rw [hprev hfc.1]
        rw [if_pos hfc, if_pos hfc]
        dsimp only
        rw [monthlyPair]
      · rw [if_neg hfc, if_neg hfc]

/-! ## `check_opening_balance` (lines 244–263) -/

/-- `cint(frappe.db.get_default("float_precision")) or 2`. -/
def effPrec (env : Env) : Int :=
  if env.float_precision = 0 then 2 else env.float_precision

/-- `flt(cat[-1].get("opening_balance", 0), float_precision)` for a
(non-empty) category list. -/
def lastOpeningBalance (cat : Option (List Row)) (p : Int) : Rat :=
  flt ((rowGet ((orEmpty cat).getLastD []) sOpeningBalance).getD (PyVal.num 0)) p

/-- The value `check_opening_balance` computes before deciding which pair
to return: the asset term is an assignment, the other four are
subtractions, each guarded by the category's truthiness, and the result
is rounded once more at the configured precision. -/
def opening_balance_value (asset liability equity income expense : Option (List Row))
    (env : Env) : Rat :=
  let p := effPrec env
  let ob0 : Rat := 0
  let ob1 := if truthyL asset then lastOpeningBalance asset p else ob0
  let ob2 := if truthyL liability then ob1 - lastOpeningBalance liability p else ob1
  let ob3 := if truthyL equity then ob2 - lastOpeningBalance equity p else ob2
  let ob4 := if truthyL income then ob3 - lastOpeningBalance income p else ob3
  let ob5 := if truthyL expense then ob4 - lastOpeningBalance expense p else ob4
  pyRound p ob5

/-- `check_opening_balance(asset, liability, equity, income, expense)`. -/
def check_opening_balance (asset liability equity income expense : Option (List Row))
    (env : Env) : Option Str × Option Rat :=
  let ob := opening_balance_value asset liability equity income expense env
  if ob ≠ 0 then (some sNotClosed, some ob) else (none, none)

/-! ## `get_report_summary` (lines 266–314) -/

/-- One summary entry (`value`, `label`, `datatype`, `currency`). -/
structure SummaryEntry where
  value : Rat
  label : Str
  datatype : Str
  currency : Str
deriving DecidableEq

/-- `acc += v` where `v` came out of `row.get(key)`: adding `None`, a
missing value or a string raises `TypeError`; `True`/`False` count as
`1`/`0`. -/
def addNum (acc : Rat) : Option PyVal → Option Rat
  | some (PyVal.num q) => some (acc + q)
  | some (PyVal.bool b) => some (acc + (if b then 1 else 0))
  | _ => none

/-- One category's contribution in one period:
`if gate: acc += cat[-2].get(key)`. -/
def catAdd (cat : Option (List Row)) (gate : Bool) (key : Str) (acc : Rat) : Option Rat :=
  if gate then
    match pyIdxNeg2 (orEmpty cat) with
    | none => none
    | some r => addNum acc (rowGet r key)
  else some acc

/-- `liability and liability[-1] == {}` (and likewise for equity, income
and expense). -/
def lastEmptyGate (cat : Option (List Row)) : Bool :=
  truthyL cat && decide ((orEmpty cat).getLastD [] = ([] : Row))

/-- The `for period in period_list` loop of `get_report_summary`,
accumulating the six running totals. -/
def grsFold (asset liability equity income expense : Option (List Row)) (ppl : Row) :
    List Period → Rat × Rat × Rat × Rat × Rat × Rat →
    Option (Rat × Rat × Rat × Rat × Rat × Rat)
  | [], acc => some acc
  | p :: rest, (na, nl, ne, ni, nx, np) =>
      (catAdd asset (truthyL asset) p.key na).bind (fun na2 =>
      (catAdd liability (lastEmptyGate liability) p.key nl).bind (fun nl2 =>
      (catAdd equity (lastEmptyGate equity) p.key ne).bind (fun ne2 =>
      (catAdd income (lastEmptyGate income) p.key ni).bind (fun ni2 =>
      (catAdd expense (lastEmptyGate expense) p.key nx).bind (fun nx2 =>
      (if ppl ≠ [] then addNum np (rowGet ppl p.key) else some np).bind (fun np2 =>
      grsFold asset liability equity income expense ppl rest
        (na2, nl2, ne2, ni2, nx2, np2)))))))

/-- `period_list = [period_list[-1]]` when `accumulated_values` is set:
`none` is the `IndexError` on an empty period list. -/
def effectivePeriodList (filters : Filters) (period_list : List Period) :
    Option (List Period) :=
  if filters.accumulated_values then
    match period_list.getLast? with
    | none => none
    | some p => some [p]
  else some period_list

/-- `get_report_summary(...)` as called from `execute` (`consolidated`
keeps its default `False`, so the loop key is `period.key`).
`consolidatedFilter` stands for the external
`get_filtered_list_for_consolidated_report`. -/
def get_report_summary (period_list : List Period)
    (asset liability equity income expense : Option (List Row)) (ppl : Row)
    (currency : Str) (filters : Filters)
    (consolidatedFilter : List Period → List Period) :
    Option (List SummaryEntry × Rat) := do
  let pl1 ← effectivePeriodList filters period_list
  let pl2 := if filters.accumulated_in_group_company then consolidatedFilter pl1 else pl1
  let acc ← grsFold asset liability equity income expense ppl pl2 (0, 0, 0, 0, 0, 0)
  some ([⟨acc.1, sTotalAsset, sCurrencyT, currency⟩,
         ⟨acc.2.1, sTotalLiability, sCurrencyT, currency⟩,
         ⟨acc.2.2.1, sTotalEquity, sCurrencyT, currency⟩,
         ⟨acc.2.2.2.1, sTotalIncome, sCurrencyT, currency⟩,
         ⟨acc.2.2.2.2.1, sTotalExpense, sCurrencyT, currency⟩],
        acc.1 - acc.2.1 + acc.2.2.1)

/-! ## `get_chart_data` (lines 317–357) -/

/-- One chart dataset. -/
structure Dataset where
  name : Str
  values : List (Option PyVal)
deriving DecidableEq

/-- The chart dict (its nested `"data"` dict is flattened into `labels`
and `datasets`). -/
structure Chart where
  labels : List (Option Str)
  datasets : List Dataset
  type : Str
  fieldtype : Str
  options : Str
  currency : Str
deriving DecidableEq

/-- One category's value list: the loop body touches `cat[-2]` only when
the category is truthy and there is at least one column after the first
two. -/
def catVals (cat : Option (List Row)) (cols2 : List Column) :
    Option (List (Option PyVal)) :=
  if truthyL cat ∧ cols2 ≠ [] then
    match pyIdxNeg2 (orEmpty cat) with
    | none => none
    | some r => some (cols2.map fun c => c.fieldname.bind (rowGet r))
  else some []

/-- `get_chart_data(filters, columns, asset, liability, equity, income,
expense, currency)`. -/
def get_chart_data (filters : Filters) (columns : List Column)
    (asset liability equity income expense : Option (List Row)) (currency : Str) :
    Option Chart := do
  let cols2 := columns.drop 2
  let asset_data ← catVals asset cols2
  let liability_data ← catVals liability cols2
  let equity_data ← catVals equity cols2
  let income_data ← catVals income cols2
  let expense_data ← catVals expense cols2
  let datasets :=
    (if asset_data ≠ [] then [⟨sAssets, asset_data⟩] else []) ++
    (if liability_data ≠ [] then [⟨sLiabilities, liability_data⟩] else []) ++
    (if equity_data ≠ [] then [⟨sEquityName, equity_data⟩] else []) ++
    (if income_data ≠ [] then [⟨sIncomeName, income_data⟩] else []) ++
    (if expense_data ≠ [] then [⟨sExpenseName, expense_data⟩] else [])
  some ⟨cols2.map (fun c => c.label), datasets,
        (if filters.accumulated_values then sLine else sBar),
        sCurrencyT, sCurrencyOpt, currency⟩

/-! ## `execute` (lines 16–119) -/

/-- The extra data row built when the previous financial year is not
closed (lines 93–103): the literal dict, then one write per period key,
then the `"total"` write. -/
def unclosedRow (period_list : List Period) (currency : Str) (ob : Rat) : Row :=
  rowSet
    (period_list.foldl (fun r p => rowSet r p.key (PyVal.num ob))
      [(sAccountName, PyVal.str sUnclosedName), (sAccount, PyVal.str sUnclosedName),
       (sWarnIfNegative, PyVal.bool true), (sCurrencyOpt, PyVal.str currency)])
    sTotal (PyVal.num ob)

/-- The 6-component value built by `execute`'s final `return` statement. -/
structure ExecResult where
  columns : List Column
  data : List Row
  message : Option Str
  chart : Chart
  report_summary : List SummaryEntry
  primitive_summary : Rat
deriving DecidableEq

/-- `presentation_currency or default_currency` (line 29). -/
def executeCurrency (filters : Filters) (env : Env) : Str :=
  pyStrOr filters.presentation_currency env.default_currency

/-- The concatenation of the five category row lists (lines 86–91). -/
def executeData0 (asset liability equity income expense : Option (List Row)) : List Row :=
  orEmpty asset ++ orEmpty liability ++ orEmpty equity ++
    orEmpty income ++ orEmpty expense

/-- The optional extra row of lines 92–103: present exactly when
`check_opening_balance` returned a balance that is truthy and nonzero
after rounding to two decimals. -/
def executeUnclosedPart (period_list : List Period)
    (asset liability equity income expense : Option (List Row))
    (filters : Filters) (env : Env) : List Row :=
  match (check_opening_balance asset liability equity income expense env).2 with
  | some ob =>
      if ob ≠ 0 ∧ pyRound 2 ob ≠ 0 then
        [unclosedRow period_list (executeCurrency filters env) ob]
      else []
  | none => []

/-- The data list as built by lines 86–103. -/
def executeData1 (period_list : List Period)
    (asset liability equity income expense : Option (List Row))
    (filters : Filters) (env : Env) : List Row :=
  executeData0 asset liability equity income expense ++
    executeUnclosedPart period_list asset liability equity income expense filters env

/-- `execute(filters)` with every external collaborator passed in as an
input: the period list, the five `get_data` category results, the
`get_columns` result, the database defaults and the consolidated-report
filter.  The initial `period_list[0]` access (line 27) is modelled by the
emptiness check; the value written into `filters.period_start_date` is
only consumed by external collaborators. -/
def execute (period_list : List Period)
    (asset liability equity income expense : Option (List Row))
    (columns0 : List Column) (filters : Filters) (env : Env)
    (consolidatedFilter : List Period → List Period) : Option ExecResult := do
  let _ ← period_list.head?
  let columns ← get_difference_columns columns0 filters
  let chart ← get_chart_data filters columns asset liability equity income expense
    (executeCurrency filters env)
  let rs ← get_report_summary period_list asset liability equity income expense []
    (executeCurrency filters env) filters consolidatedFilter
  some ⟨columns,
        get_difference_data columns
          (executeData1 period_list asset liability equity income expense filters env),
        (check_opening_balance asset liability equity income expense env).1,
        chart, rs.1, rs.2⟩

/-- The return statement of `execute` seen as the ordered sequence of the
components of the returned tuple. -/
inductive ExecComponent where
  | columns : List Column → ExecComponent
  | data : List Row → ExecComponent
  | message : Option Str → ExecComponent
  | chart : Chart → ExecComponent
  | reportSummary : List SummaryEntry → ExecComponent
  | primitiveSummary : Rat → ExecComponent
deriving DecidableEq

/-- The ordered component sequence of the tuple `execute` returns. -/
def executeReturnSeq (period_list : List Period)
    (asset liability equity income expense : Option (List Row))
    (columns0 : List Column) (filters : Filters) (env : Env)
    (consolidatedFilter : List Period → List Period) : Option (List ExecComponent) :=
  (execute period_list asset liability equity income expense columns0 filters env
    consolidatedFilter).map fun r =>
    [ExecComponent.columns r.columns, ExecComponent.data r.data,
     ExecComponent.message r.message, ExecComponent.chart r.chart,
     ExecComponent.reportSummary r.report_summary,
     ExecComponent.primitiveSummary r.primitive_summary]

/-! ## Rounding evaluation helpers -/

theorem roundHalfEven_intCast (n : Int) : roundHalfEven (n : Rat) = n := by
  unfold roundHalfEven
  rw [Int.floor_intCast]
  rw [if_pos (by norm_num)]

theorem pyRound_eq_of_intCast (p : Int) (x : Rat) (n : Int)
    (h : x * (10 : Rat) ^ p = (n : Rat)) :
    pyRound p x = (n : Rat) / (10 : Rat) ^ p := by
  unfold pyRound
  rw [h, roundHalfEven_intCast]

theorem pyRound_zero (p : Int) : pyRound p 0 = 0 := by
  rw [pyRound_eq_of_intCast p 0 0 (by simp)]
  simp

/-! ## Claim C2 -/

/-- C2: `calculate_percentage_difference(old_value, new_value)` returns
`0` when both values are zero, `100` when the old value is zero and the
new one is nonzero (whatever its sign), and otherwise
`((new_value - old_value) / old_value) * 100` rounded to two decimal
places. -/
theorem c2_calculate_percentage_difference (o n : Rat) :
    calculate_percentage_difference 0 0 = 0 ∧
    (n ≠ 0 → calculate_percentage_difference 0 n = 100) ∧
    (o ≠ 0 → calculate_percentage_difference o n =
      pyRound 2 (((n - o) / o) * 100)) := by
  refine ⟨by simp [calculate_percentage_difference], fun hn => ?_, fun ho => ?_⟩
  · simp [calculate_percentage_difference, hn]
  · simp [calculate_percentage_difference, ho]

/-- Witness for C2: the zero/zero case, a negative new value against a
zero old value, and the generic formula at `(2, 3)`, where the rounded
percentage evaluates to `50`. -/
theorem c2_calculate_percentage_difference_witness :
    calculate_percentage_difference 0 0 = 0 ∧
    calculate_percentage_difference 0 (-3) = 100 ∧
    calculate_percentage_difference 2 3 = pyRound 2 (((3 - 2) / 2) * 100) ∧
    pyRound 2 (((3 - 2) / 2) * 100) = 50 := by
  refine ⟨(c2_calculate_percentage_difference 2 (-3)).1,
          (c2_calculate_percentage_difference 2 (-3)).2.1 (by norm_num),
          (c2_calculate_percentage_difference 2 3).2.2 (by norm_num), ?_⟩
  rw [pyRound_eq_of_intCast 2 _ 5000 (by norm_num)]
  norm_num

/-! ## Claim C3 -/

theorem get_difference_data_length (columns : List Column) (data : List Row) :
    (get_difference_data columns data).length = data.length := by
  rw [get_difference_data_eq_map]
  exact List.length_map _ _

theorem get_difference_data_getD (columns : List Column) (data : List Row) (i : Nat)
    (hi : i < data.length) :
    (get_difference_data columns data).getD i [] =
      transformRow columns (data.getD i []) := by
  rw [get_difference_data_eq_map]
  rw [List.getD_eq_get?, List.getD_eq_get?, List.get?_map]
  cases h : data.get? i with
  | none =>
      have := List.get?_eq_none.mp h
      omega
  | some r => simp

/-- C3: for every data row (position `i`) and every column classified as
a difference column (fieldname containing `"diff_with_"`, parsed into the
keys `a` and `b` around `"_and_"`), `get_difference_data` stores
`value(b) - value(a)` at that fieldname, where `value` coerces the row
entry to a number and treats a missing or `None` entry as `0`; for every
column classified as a percentage column (`"percent_with_"` and not
`"diff_with_"`) it stores `calculate_percentage_difference(value(a),
value(b))`. -/
theorem c3_get_difference_data_values (columns : List Column) (data : List Row)
    (i : Nat) (hi : i < data.length) (f a b : Str) (va vb : Rat) :
    (f ∈ diff_w_columns columns →
      parseAfter sDiffWith f = some (a, b) →
      readNum (rowGet (data.getD i []) a) = some va →
      readNum (rowGet (data.getD i []) b) = some vb →
      rowGet ((get_difference_data columns data).getD i []) f =
        some (PyVal.num (vb - va))) ∧
    (f ∈ percent_diff_columns columns →
      parseAfter sPercentWith f = some (a, b) →
      readNum (rowGet (data.getD i []) a) = some va →
      readNum (rowGet (data.getD i []) b) = some vb →
      rowGet ((get_difference_data columns data).getD i []) f =
        some (PyVal.num (calculate_percentage_difference va vb))) := by
  constructor
  · intro hf hp ha hb
    rw [get_difference_data_getD columns data i hi, transformRow_diff_lookup hf]
    unfold diffVal
    rw [hp]
    dsimp only
    rw [ha, hb]
  · intro hf hp ha hb
    rw [get_difference_data_getD columns data i hi, transformRow_percent_lookup hf]
    unfold percentVal
    rw [hp]
    dsimp only
    rw [ha, hb]

/-- Concrete two-column, one-row input for the C3 and C10 witnesses. -/
def c3Cols : List Column :=
  [⟨some ( "diff_with_a_and_b".data), none, some sCurrencyT, some sCurrencyOpt, some 150⟩,
   ⟨some ( "percent_with_a_and_b".data), none, some sPercentT, none, some 150⟩]

def c3Row : Row := [( "a".data, PyVal.num 1), ( "b".data, PyVal.num 3)]

/-- Witness for C3 on a row with `a = 1`, `b = 3`: the difference column
receives `3 - 1` and the percentage column
`calculate_percentage_difference 1 3`. -/
theorem c3_get_difference_data_values_witness :
    rowGet ((get_difference_data c3Cols [c3Row]).getD 0 []) ( "diff_with_a_and_b".data) =
      some (PyVal.num ((3 : Rat) - 1)) ∧
    rowGet ((get_difference_data c3Cols [c3Row]).getD 0 []) ( "percent_with_a_and_b".data) =
      some (PyVal.num (calculate_percentage_difference 1 3)) :=
  ⟨(c3_get_difference_data_values c3Cols [c3Row] 0 (by decide)
      ( "diff_with_a_and_b".data) ( "a".data) ( "b".data) 1 3).1
      (by decide) (by decide) (by decide) (by decide),
   (c3_get_difference_data_values c3Cols [c3Row] 0 (by decide)
      ( "percent_with_a_and_b".data) ( "a".data) ( "b".data) 1 3).2
      (by decide) (by decide) (by decide) (by decide)⟩

/-! ## Claim C10 -/

/-- C10: `get_difference_data` returns as many rows as it receives, in
order (row `i` of the output is the transformed row `i` of the input),
and on each row it writes only the fieldnames classified as difference or
percentage columns: every other key keeps the value it had on entry. -/
theorem c10_get_difference_data_frame (columns : List Column) (data : List Row)
    (i : Nat) (k : Str) (hi : i < data.length)
    (h1 : k ∉ diff_w_columns columns) (h2 : k ∉ percent_diff_columns columns) :
    (get_difference_data columns data).length = data.length ∧
    rowGet ((get_difference_data columns data).getD i []) k =
      rowGet (data.getD i []) k := by
  refine ⟨get_difference_data_length columns data, ?_⟩
  rw [get_difference_data_getD columns data i hi]
  exact transformRow_frame h1 h2 _

/-- Witness for C10: the key `"a"` is not a difference or percentage
column, so the transformed row still maps it to its input value. -/
theorem c10_get_difference_data_frame_witness :
    (get_difference_data c3Cols [c3Row]).length = ([c3Row] : List Row).length ∧
    rowGet ((get_difference_data c3Cols [c3Row]).getD 0 []) ( "a".data) =
      rowGet (([c3Row] : List Row).getD 0 []) ( "a".data) :=
  c10_get_difference_data_frame c3Cols [c3Row] 0 ( "a".data)
    (by decide) (by decide) (by decide)

/-! ## Claim C4 -/

/-- C4: with `show_difference = "Monthly"`, `get_difference_columns`
keeps all input columns unmodified and in order, and immediately after
every `Currency` column preceded anywhere earlier by another `Currency`
column it inserts exactly two new columns derived from the immediately
preceding column `P` and the current column `C`: a `Currency` column with
fieldname `diff_with_<P.fieldname>_and_<C.fieldname>` and a `Percent`
column with fieldname `percent_with_<P.fieldname>_and_<C.fieldname>`;
nothing else is added.  `c4Spec` is that description transcribed from the
claim. -/
theorem c4_get_difference_columns_monthly (columns : List Column) (filters : Filters)
    (hm : filters.show_difference = some sMonthly) :
    get_difference_columns columns filters = some (c4Spec none false columns) :=
  gdcGo_monthly filters hm columns false emptyColumn none
    (fun h => absurd h (by decide))

def c4Cols : List Column :=
  [⟨some ( "jan_2024".data), some ( "Jan 2024".data), some sCurrencyT,
    some sCurrencyOpt, some 150⟩,
   ⟨some ( "feb_2024".data), some ( "Feb 2024".data), some sCurrencyT,
    some sCurrencyOpt, some 150⟩]

def c4Filters : Filters := ⟨false, false, none, some sMonthly⟩

/-- Witness for C4 on two Currency period columns: the output is the two
input columns followed by the inserted difference and percentage
columns. -/
theorem c4_get_difference_columns_monthly_witness :
    get_difference_columns c4Cols c4Filters = some (c4Spec none false c4Cols) ∧
    c4Spec none false c4Cols =
      [⟨some ( "jan_2024".data), some ( "Jan 2024".data), some sCurrencyT,
        some sCurrencyOpt, some 150⟩,
       ⟨some ( "feb_2024".data), some ( "Feb 2024".data), some sCurrencyT,
        some sCurrencyOpt, some 150⟩,
       ⟨some ( "diff_with_jan_2024_and_feb_2024".data), some ( "Diff W/Jan 2024".data),
        some sCurrencyT, some sCurrencyOpt, some 150⟩,
       ⟨some ( "percent_with_jan_2024_and_feb_2024".data),
        some ( "Percent Diff W/Jan 2024".data), some sPercentT, none, some 150⟩] :=
  ⟨c4_get_difference_columns_monthly c4Cols c4Filters rfl, by decide⟩

/-! ## Claim C9 -/

/-- Every extra column appended by one Yearly iteration whose fieldtype is
`Percent` has a fieldname starting with `"percent_diff_with_"`. -/
theorem gdcStep_yearly_extra (filters : Filters)
    (hy : filters.show_difference = some sYearly)
    (flag : Bool) (old_value row : Column) (extra : List Column) (flag2 : Bool)
    (old2 : Column)
    (hstep : gdcStep filters flag old_value row = some (extra, flag2, old2)) :
    ∀ c ∈ extra, c.fieldtype = some sPercentT →
      ∃ restStr, c.fieldname = some (sPercentDiffWith ++ restStr) := by
  have hne : ¬ ((some sYearly : Option Str) = some sMonthly) := by decide
  unfold gdcStep at hstep
  rw [hy] at hstep
  by_cases hfc : flag = true ∧ row.fieldtype = some sCurrencyT
  · rw [if_pos hfc] at hstep
    dsimp only at hstep
    rw [if_neg hne, if_pos rfl] at hstep
    cases hfn : row.fieldname with
    | none => rw [hfn] at hstep; cases hstep
    | some f =>
        rw [hfn] at hstep
        dsimp only at hstep
        by_cases hlt : (pySplit sUnderscore f).length < 2
        · rw [if_pos hlt] at hstep
          injection hstep with hstep
          injection hstep with h1 h2
          subst h1
          intro c hc
          cases hc
        · rw [if_neg hlt] at hstep
          cases hg1 : ((pySplit sUnderscore f).get? 1).bind pyIntQ with
          | none => rw [hg1] at hstep; cases hstep
          | some y =>
              rw [hg1] at hstep
              dsimp only at hstep
              cases hlab : row.label with
              | none => rw [hlab] at hstep; cases hstep
              | some lab =>
                  rw [hlab] at hstep
                  dsimp only at hstep
                  cases hg2 : ((pySplit sSpace lab).get? 1).bind pyIntQ with
                  | none => rw [hg2] at hstep; cases hstep
                  | some y2 =>
                      rw [hg2] at hstep
                      dsimp only at hstep
                      injection hstep with hstep
                      injection hstep with h1 h2
                      subst h1
                      intro c hc hp
                      simp only [List.nil_append] at hc
                      unfold yearlyPair at hc
                      rcases List.mem_cons.mp hc with h | h
                      · subst h
                        dsimp only at hp
                        exact absurd hp (by decide)
                      · rcases List.mem_cons.mp h with h0 | h0
                        · subst h0
                          refine ⟨(pySplit sSpace lab).headI ++ sSpace ++ intStr (y2 - 1)
                              ++ sAnd ++ f, ?_⟩
                          dsimp only
                          simp [List.append_assoc]
                        · cases h0
  · rw [if_neg hfc] at hstep
    injection hstep with hstep
    injection hstep with h1 h2
    subst h1
    intro c hc
    cases hc

/-- Columns in the Yearly output that were not in the input come from the
step's extra columns. -/
theorem gdcGo_yearly_new_cols (filters : Filters)
    (hy : filters.show_difference = some sYearly) :
    ∀ (cols : List Column) (flag : Bool) (old_value : Column) (out : List Column),
      gdcGo filters flag old_value cols = some out →
      ∀ c ∈ out, c ∉ cols → c.fieldtype = some sPercentT →
        ∃ restStr, c.fieldname = some (sPercentDiffWith ++ restStr) := by
  intro cols
  induction cols with
  | nil =>
      intro flag old out hout c hc _ _
      injection hout with hout
      subst hout
      cases hc
  | cons row rest ih =>
      intro flag old out hout c hc hnotin hp
      rw [gdcGo_cons] at hout
      cases hstep : gdcStep filters flag old row with
      | none => rw [hstep] at hout; cases hout
      | some t =>
          obtain ⟨extra, flag2, old2⟩ := t
          rw [hstep] at hout
          dsimp only at hout
          cases htail : gdcGo filters flag2 old2 rest with
          | none => rw [htail] at hout; cases hout
          | some tail =>
              rw [htail] at hout
              dsimp only [Option.map] at hout
              injection hout with hout
              subst hout
              rcases List.mem_cons.mp hc with h | h
              · subst h
                exact absurd (List.mem_cons_self _ _) hnotin
              · rcases List.mem_append.mp h with h2 | h2
                · exact gdcStep_yearly_extra filters hy flag old row extra flag2 old2
                    hstep c h2 hp
                · exact ih flag2 old2 tail htail c h2
                    (fun hm => hnotin (List.mem_cons_of_mem _ hm)) hp

/-- C9: with `show_difference = "Yearly"`, every `Percent` column that
`get_difference_columns` produces (a column of the output that is not an
input column) has a fieldname beginning with `"percent_diff_with_"`.
Such a fieldname contains `"diff_with_"`, so `get_difference_data`
classifies it as a difference column and not as a percentage column, and
fills it with a subtraction (`value(b) - value(a)` for its parsed keys),
never with `calculate_percentage_difference`. -/
theorem c9_yearly_percent_columns_subtract (columns out : List Column)
    (filters : Filters) (hy : filters.show_difference = some sYearly)
    (hout : get_difference_columns columns filters = some out) :
    ∀ c ∈ out, c ∉ columns → c.fieldtype = some sPercentT →
      ∀ f, c.fieldname = some f →
        sPercentDiffWith <+: f ∧
        sDiffWith <:+: f ∧
        f ∈ diff_w_columns [c] ∧
        f ∉ percent_diff_columns [c] ∧
        (∀ (r : Row) (a b : Str) (va vb : Rat),
          parseAfter sDiffWith f = some (a, b) →
          readNum (rowGet r a) = some va → readNum (rowGet r b) = some vb →
          rowGet ((get_difference_data [c] [r]).getD 0 []) f =
            some (PyVal.num (vb - va))) := by
  intro c hc hnotin hp f hf
  obtain ⟨restStr, hfn⟩ :=
    gdcGo_yearly_new_cols filters hy columns false emptyColumn out hout c hc hnotin hp
  rw [hf] at hfn
  injection hfn with hfn
  have hpre : sPercentDiffWith <+: f := by rw [hfn]; exact ⟨restStr, rfl⟩
  have hdinf : sDiffWith <:+: f := by
    have h0 : sDiffWith <:+: sPercentDiffWith := by decide
    exact inTrans h0 (preToIn hpre)
  have hne0 : f ≠ [] := by
    intro h0
    rw [h0] at hpre
    obtain ⟨t, ht⟩ := hpre
    have := congrArg List.length ht
    simp [sPercentDiffWith] at this
  have hmemd : f ∈ diff_w_columns [c] := by
    have hrep : diff_w_columns [c] = [f] := by
      simp [diff_w_columns, hf, hne0, hdinf]
    rw [hrep]
    exact List.mem_singleton.mpr rfl
  have hmemp : f ∉ percent_diff_columns [c] := by
    have hrep : percent_diff_columns [c] = [] := by
      simp [percent_diff_columns, hf, hne0, hdinf]
    rw [hrep]
    exact List.not_mem_nil f
  refine ⟨hpre, hdinf, hmemd, hmemp, ?_⟩
  intro r a b va vb hpab ha hb
  rw [get_difference_data_getD [c] [r] 0 (by simp), transformRow_diff_lookup hmemd]
  have hr0 : (([r] : List Row)).getD 0 [] = r := rfl
  rw [hr0] at *
  unfold diffVal
  rw [hpab]
  dsimp only
  rw [ha, hb]

/-- Concrete Yearly input for the C9 witness. -/
def c9Filters : Filters := ⟨false, false, none, some sYearly⟩

/-- The yearly percentage column produced after the second Currency
column of `c4Cols`. -/
def c9P : Column :=
  ⟨some ( "percent_diff_with_Feb 2023_and_feb_2024".data),
   some ( "Percent Diff W/Feb 2023".data), some sPercentT, none, some 150⟩

def c9F : Str := "percent_diff_with_Feb 2023_and_feb_2024".data

/-- Witness for C9: on the two Currency period columns of `c4Cols`, the
Yearly run produces the percentage column `c9P`; its fieldname starts
with `"percent_diff_with_"`, is classified as a difference column, and is
filled with a subtraction on a concrete row. -/
theorem c9_yearly_percent_columns_subtract_witness :
    sPercentDiffWith <+: c9F ∧
    sDiffWith <:+: c9F ∧
    c9F ∈ diff_w_columns [c9P] ∧
    c9F ∉ percent_diff_columns [c9P] ∧
    rowGet ((get_difference_data [c9P] [c3Row]).getD 0 []) c9F =
      some (PyVal.num ((0 : Rat) - 0)) := by
  have hout : get_difference_columns c4Cols c9Filters =
      some [⟨some ( "jan_2024".data), some ( "Jan 2024".data), some sCurrencyT,
              some sCurrencyOpt, some 150⟩,
            ⟨some ( "feb_2024".data), some ( "Feb 2024".data), some sCurrencyT,
              some sCurrencyOpt, some 150⟩,
            ⟨some ( "diff_with_feb_2023_and_feb_2024".data),
              some ( "Diff W/Feb 2023".data), some sCurrencyT,
              some sCurrencyOpt, some 150⟩,
            c9P] := by decide
  have h := c9_yearly_percent_columns_subtract c4Cols _ c9Filters rfl hout
    c9P (by decide) (by decide) (by decide) c9F rfl
  exact ⟨h.1, h.2.1, h.2.2.1, h.2.2.2.1,
    h.2.2.2.2 c3Row ( "Feb 2023".data) ( "feb_2024".data) 0 0
      (by decide) (by decide) (by decide)⟩

/-! ## Claim C7 -/

/-- `[period_list[-1]]`, the restriction applied when
`accumulated_values` is set. -/
def lastOnly (l : List Period) : List Period :=
  match l.getLast? with
  | none => []
  | some p => [p]

/-- Specification-side total for one category (from C7's wording): the sum
over the period keys of the second-to-last row's value, counted only when
the category's gate holds. -/
def catTotal (gate : Bool) (v : Str → Rat) (pl : List Period) : Rat :=
  if gate then (pl.map (fun p => v p.key)).sum else 0

theorem catTotal_nil (gate : Bool) (v : Str → Rat) : catTotal gate v [] = 0 := by
  cases gate <;> simp [catTotal]

theorem catTotal_cons (gate : Bool) (v : Str → Rat) (p : Period) (rest : List Period) :
    catTotal gate v (p :: rest) = (if gate then v p.key else 0) + catTotal gate v rest := by
  cases gate <;> simp [catTotal]

theorem grsFold_cons (asset liability equity income expense : Option (List Row))
    (ppl : Row) (p : Period) (rest : List Period) (na nl ne ni nx np : Rat) :
    grsFold asset liability equity income expense ppl (p :: rest)
      (na, nl, ne, ni, nx, np) =
      (catAdd asset (truthyL asset) p.key na).bind (fun na2 =>
      (catAdd liability (lastEmptyGate liability) p.key nl).bind (fun nl2 =>
      (catAdd equity (lastEmptyGate equity) p.key ne).bind (fun ne2 =>
      (catAdd income (lastEmptyGate income) p.key ni).bind (fun ni2 =>
      (catAdd expense (lastEmptyGate expense) p.key nx).bind (fun nx2 =>
      (if ppl ≠ [] then addNum np (rowGet ppl p.key) else some np).bind (fun np2 =>
      grsFold asset liability equity income expense ppl rest
        (na2, nl2, ne2, ni2, nx2, np2))))))) := rfl

theorem catAdd_eval (cat : Option (List Row)) (gate : Bool) (key : Str) (acc : Rat)
    (row : Row) (v : Str → Rat)
    (hR : gate = true → pyIdxNeg2 (orEmpty cat) = some row)
    (hv : gate = true → rowGet row key = some (PyVal.num (v key))) :
    catAdd cat gate key acc = some (acc + (if gate then v key else 0)) := by
  cases gate with
  | false => simp [catAdd]
  | true =>
      unfold catAdd
      rw [if_pos rfl, hR rfl]
      dsimp only
      rw [hv rfl]
      unfold addNum
      simp

theorem grsFold_eval (asset liability equity income expense : Option (List Row))
    (aRow lRow eRow iRow xRow : Row) (av lv ev iv xv : Str → Rat)
    (haR : truthyL asset = true → pyIdxNeg2 (orEmpty asset) = some aRow)
    (hlR : lastEmptyGate liability = true → pyIdxNeg2 (orEmpty liability) = some lRow)
    (heR : lastEmptyGate equity = true → pyIdxNeg2 (orEmpty equity) = some eRow)
    (hiR : lastEmptyGate income = true → pyIdxNeg2 (orEmpty income) = some iRow)
    (hxR : lastEmptyGate expense = true → pyIdxNeg2 (orEmpty expense) = some xRow) :
    ∀ (pl : List Period),
      (truthyL asset = true → ∀ p ∈ pl, rowGet aRow p.key = some (PyVal.num (av p.key))) →
      (lastEmptyGate liability = true →
        ∀ p ∈ pl, rowGet lRow p.key = some (PyVal.num (lv p.key))) →
      (lastEmptyGate equity = true →
        ∀ p ∈ pl, rowGet eRow p.key = some (PyVal.num (ev p.key))) →
      (lastEmptyGate income = true →
        ∀ p ∈ pl, rowGet iRow p.key = some (PyVal.num (iv p.key))) →
      (lastEmptyGate expense = true →
        ∀ p ∈ pl, rowGet xRow p.key = some (PyVal.num (xv p.key))) →
      ∀ (na nl ne ni nx np : Rat),
        grsFold asset liability equity income expense [] pl (na, nl, ne, ni, nx, np) =
          some (na + catTotal (truthyL asset) av pl,
                nl + catTotal (lastEmptyGate liability) lv pl,
                ne + catTotal (lastEmptyGate equity) ev pl,
                ni + catTotal (lastEmptyGate income) iv pl,
                nx + catTotal (lastEmptyGate expense) xv pl,
                np) := by
  intro pl
  induction pl with
  | nil =>
      intro _ _ _ _ _ na nl ne ni nx np
      simp [grsFold, catTotal_nil]
  | cons p rest ih =>
      intro hav hlv hev hiv hxv na nl ne ni nx np
      rw [grsFold_cons]
      rw [catAdd_eval asset _ _ _ aRow av haR
          (fun hg => hav hg p (List.mem_cons_self _ _))]
      dsimp only [Option.bind]
      rw [catAdd_eval liability _ _ _ lRow lv hlR
          (fun hg => hlv hg p (List.mem_cons_self _ _))]
      dsimp only [Option.bind]
      rw [catAdd_eval equity _ _ _ eRow ev heR
          (fun hg => hev hg p (List.mem_cons_self _ _))]
      dsimp only [Option.bind]
      rw [catAdd_eval income _ _ _ iRow iv hiR
          (fun hg => hiv hg p (List.mem_cons_self _ _))]
      dsimp only [Option.bind]
      rw [catAdd_eval expense _ _ _ xRow xv hxR
          (fun hg => hxv hg p (List.mem_cons_self _ _))]
      dsimp only [Option.bind]
      rw [if_neg (by simp)]
      dsimp only [Option.bind]
      rw [ih (fun hg q hq => hav hg q (List.mem_cons_of_mem _ hq))
          (fun hg q hq => hlv hg q (List.mem_cons_of_mem _ hq))
          (fun hg q hq => hev hg q (List.mem_cons_of_mem _ hq))
          (fun hg q hq => hiv hg q (List.mem_cons_of_mem _ hq))
          (fun hg q hq => hxv hg q (List.mem_cons_of_mem _ hq))]
      simp [catTotal_cons, add_assoc]

/-- C7: `get_report_summary` (as called from `execute`, with an empty
provisional dict) folds over the period list — restricted to the last
period when `accumulated_values` is set and left untouched when the
consolidated-group filter is off: for each period key the asset total
gains the second-to-last asset row's value whenever the asset list is
non-empty, and the liability, equity, income and expense totals gain
their second-to-last row's value only when that category's list is
non-empty and its last element is the empty dict; the result is the five
totals as `Currency` summary entries plus
`net_asset - net_liability + net_equity`. -/
theorem c7_get_report_summary (period_list : List Period)
    (asset liability equity income expense : Option (List Row))
    (currency : Str) (filters : Filters) (cf : List Period → List Period)
    (pl : List Period) (aRow lRow eRow iRow xRow : Row) (av lv ev iv xv : Str → Rat)
    (hgc : filters.accumulated_in_group_company = false)
    (hne : filters.accumulated_values = true → period_list ≠ [])
    (hpl : pl = if filters.accumulated_values then lastOnly period_list else period_list)
    (haR : truthyL asset = true → pyIdxNeg2 (orEmpty asset) = some aRow)
    (hlR : lastEmptyGate liability = true → pyIdxNeg2 (orEmpty liability) = some lRow)
    (heR : lastEmptyGate equity = true → pyIdxNeg2 (orEmpty equity) = some eRow)
    (hiR : lastEmptyGate income = true → pyIdxNeg2 (orEmpty income) = some iRow)
    (hxR : lastEmptyGate expense = true → pyIdxNeg2 (orEmpty expense) = some xRow)
    (hav : truthyL asset = true → ∀ p ∈ pl, rowGet aRow p.key = some (PyVal.num (av p.key)))
    (hlv : lastEmptyGate liability = true →
      ∀ p ∈ pl, rowGet lRow p.key = some (PyVal.num (lv p.key)))
    (hev : lastEmptyGate equity = true →
      ∀ p ∈ pl, rowGet eRow p.key = some (PyVal.num (ev p.key)))
    (hiv : lastEmptyGate income = true →
      ∀ p ∈ pl, rowGet iRow p.key = some (PyVal.num (iv p.key)))
    (hxv : lastEmptyGate expense = true →
      ∀ p ∈ pl, rowGet xRow p.key = some (PyVal.num (xv p.key))) :
    get_report_summary period_list asset liability equity income expense [] currency
      filters cf =
      some ([⟨catTotal (truthyL asset) av pl, sTotalAsset, sCurrencyT, currency⟩,
             ⟨catTotal (lastEmptyGate liability) lv pl, sTotalLiability, sCurrencyT, currency⟩,
             ⟨catTotal (lastEmptyGate equity) ev pl, sTotalEquity, sCurrencyT, currency⟩,
             ⟨catTotal (lastEmptyGate income) iv pl, sTotalIncome, sCurrencyT, currency⟩,
             ⟨catTotal (lastEmptyGate expense) xv pl, sTotalExpense, sCurrencyT, currency⟩],
            catTotal (truthyL asset) av pl - catTotal (lastEmptyGate liability) lv pl +
              catTotal (lastEmptyGate equity) ev pl) := by
  unfold get_report_summary
  have hplx : effectivePeriodList filters period_list = some pl := by
    unfold effectivePeriodList
    cases hacc : filters.accumulated_values with
    | false =>
        rw [if_neg (by simp), hpl, hacc]
        simp
    | true =>
        rw [if_pos rfl]
        cases hlast : period_list.getLast? with
        | none => exact absurd (List.getLast?_eq_none.mp hlast) (hne hacc)
        | some p =>
            rw [hpl, hacc]
            simp [lastOnly, hlast]
  rw [hplx, hgc]
  dsimp only [Bind.bind, Option.bind]
  rw [if_neg (by simp)]
  rw [grsFold_eval asset liability equity income expense aRow lRow eRow iRow xRow
      av lv ev iv xv haR hlR heR hiR hxR pl hav hlv hev hiv hxv 0 0 0 0 0 0]
  dsimp only [Bind.bind, Option.bind]
  simp [zero_add]

/-- Concrete inputs for the C7 witness. -/
def c7Period : Period := ⟨ "p".data⟩

def c7ARow : Row := [( "p".data, PyVal.num 2)]
def c7LRow : Row := [( "p".data, PyVal.num 3)]
def c7IRow : Row := [( "p".data, PyVal.num 7)]

def c7Asset : Option (List Row) := some [c7ARow, [( "other".data, PyVal.num 9)]]
def c7Liability : Option (List Row) := some [c7LRow, []]
def c7Income : Option (List Row) := some [c7IRow, [( "x".data, PyVal.null)]]

def c7Filters : Filters := ⟨false, false, none, none⟩

/-- Witness for C7: one period, an asset list whose last row is not
empty (counted because assets have no empty-dict gate), a liability list
ending in the empty dict (counted), an income list not ending in the
empty dict (not counted), no equity and no expense. -/
theorem c7_get_report_summary_witness :
    get_report_summary [c7Period] c7Asset c7Liability none c7Income none []
      ( "USD".data) c7Filters (fun l => l) =
      some ([⟨catTotal (truthyL c7Asset) (fun _ => 2) [c7Period],
              sTotalAsset, sCurrencyT, ( "USD".data)⟩,
             ⟨catTotal (lastEmptyGate c7Liability) (fun _ => 3) [c7Period],
              sTotalLiability, sCurrencyT, ( "USD".data)⟩,
             ⟨catTotal (lastEmptyGate (none : Option (List Row))) (fun _ => 0) [c7Period],
              sTotalEquity, sCurrencyT, ( "USD".data)⟩,
             ⟨catTotal (lastEmptyGate c7Income) (fun _ => 7) [c7Period],
              sTotalIncome, sCurrencyT, ( "USD".data)⟩,
             ⟨catTotal (lastEmptyGate (none : Option (List Row))) (fun _ => 0) [c7Period],
              sTotalExpense, sCurrencyT, ( "USD".data)⟩],
            catTotal (truthyL c7Asset) (fun _ => 2) [c7Period] -
              catTotal (lastEmptyGate c7Liability) (fun _ => 3) [c7Period] +
              catTotal (lastEmptyGate (none : Option (List Row))) (fun _ => 0) [c7Period]) :=
  c7_get_report_summary [c7Period] c7Asset c7Liability none c7Income none
    ( "USD".data) c7Filters (fun l => l) [c7Period] c7ARow c7LRow [] c7IRow []
    (fun _ => 2) (fun _ => 3) (fun _ => 0) (fun _ => 7) (fun _ => 0)
    rfl (by decide) (by decide)
    (by decide) (by decide) (by decide) (by decide) (by decide)
    (by decide) (by decide) (by decide) (by decide) (by decide)

/-! ## Claim C8 -/

/-- Two leading columns with no period columns after them. -/
def c8Cols : List Column :=
  [⟨some ( "account".data), some ( "Account".data), some ( "Link".data), none, some 300⟩,
   ⟨some ( "currency".data), none, some ( "Data".data), none, some 100⟩]

def c8Filters : Filters := ⟨false, false, none, none⟩

/-- Counterexample to C8 as stated: with a non-empty asset row list but
only two columns (so nothing beyond index 2), `get_chart_data` returns a
chart with no datasets at all, although the claim requires an `Assets`
dataset to be included exactly when the asset row list is non-empty. -/
theorem c8_counterexample :
    get_chart_data c8Filters c8Cols (some [c3Row]) none none none none ( "USD".data) =
      some ⟨[], [], sBar, sCurrencyT, sCurrencyOpt, ( "USD".data)⟩ ∧
    truthyL (some [c3Row]) = true ∧ ([c3Row] : List Row) ≠ [] :=
  ⟨by decide, by decide, by decide⟩

theorem catVals_eval (cat : Option (List Row)) (cols2 : List Column) (row : Row)
    (hR : truthyL cat = true ∧ cols2 ≠ [] → pyIdxNeg2 (orEmpty cat) = some row) :
    catVals cat cols2 =
      some (if truthyL cat = true ∧ cols2 ≠ [] then
        cols2.map (fun c => c.fieldname.bind (rowGet row)) else []) := by
  by_cases h : truthyL cat = true ∧ cols2 ≠ []
  · unfold catVals
    rw [if_pos h, hR h]
    rw [if_pos h]
  · unfold catVals
    rw [if_neg h, if_neg h]

/-- A dataset is included exactly when its gate holds, given that the
gate forces the value list to be non-empty. -/
theorem datasetIf (gate : Prop) [Decidable gate] (name : Str)
    (vals : List (Option PyVal)) (hv : gate → vals ≠ []) :
    (if (if gate then vals else []) ≠ []
      then [(⟨name, if gate then vals else []⟩ : Dataset)] else []) =
    (if gate then [(⟨name, vals⟩ : Dataset)] else []) := by
  by_cases h : gate
  · simp [h, hv h]
  · simp [h]

/-- C8 (amended): `get_chart_data` returns a chart whose labels are the
labels of the columns from index 2 onward, with one dataset per category
(Assets, Liabilities, Equity, Income, Expense) included exactly when that
category's row list is non-empty AND there is at least one column from
index 2 onward (the claim omitted the second condition); each dataset's
values are the category's second-to-last row looked up at those columns'
fieldnames, and the chart type is `"bar"` when `accumulated_values` is
falsy and `"line"` otherwise. -/
theorem c8_get_chart_data_amended (filters : Filters) (columns : List Column)
    (asset liability equity income expense : Option (List Row)) (currency : Str)
    (aRow lRow eRow iRow xRow : Row)
    (haR : truthyL asset = true ∧ columns.drop 2 ≠ [] →
      pyIdxNeg2 (orEmpty asset) = some aRow)
    (hlR : truthyL liability = true ∧ columns.drop 2 ≠ [] →
      pyIdxNeg2 (orEmpty liability) = some lRow)
    (heR : truthyL equity = true ∧ columns.drop 2 ≠ [] →
      pyIdxNeg2 (orEmpty equity) = some eRow)
    (hiR : truthyL income = true ∧ columns.drop 2 ≠ [] →
      pyIdxNeg2 (orEmpty income) = some iRow)
    (hxR : truthyL expense = true ∧ columns.drop 2 ≠ [] →
      pyIdxNeg2 (orEmpty expense) = some xRow) :
    get_chart_data filters columns asset liability equity income expense currency =
      some ⟨(columns.drop 2).map (fun c => c.label),
            (if truthyL asset = true ∧ columns.drop 2 ≠ [] then
              [⟨sAssets, (columns.drop 2).map (fun c => c.fieldname.bind (rowGet aRow))⟩]
             else []) ++
            (if truthyL liability = true ∧ columns.drop 2 ≠ [] then
              [⟨sLiabilities,
                (columns.drop 2).map (fun c => c.fieldname.bind (rowGet lRow))⟩]
             else []) ++
            (if truthyL equity = true ∧ columns.drop 2 ≠ [] then
              [⟨sEquityName,
                (columns.drop 2).map (fun c => c.fieldname.bind (rowGet eRow))⟩]
             else []) ++
            (if truthyL income = true ∧ columns.drop 2 ≠ [] then
              [⟨sIncomeName,
                (columns.drop 2).map (fun c => c.fieldname.bind (rowGet iRow))⟩]
             else []) ++
            (if truthyL expense = true ∧ columns.drop 2 ≠ [] then
              [⟨sExpenseName,
                (columns.drop 2).map (fun c => c.fieldname.bind (rowGet xRow))⟩]
             else []),
            (if filters.accumulated_values then sLine else sBar),
            sCurrencyT, sCurrencyOpt, currency⟩ := by
  have hmapne : ∀ (row : Row), truthyL asset = true ∧ columns.drop 2 ≠ [] →
      (columns.drop 2).map (fun c => c.fieldname.bind (rowGet row)) ≠ [] := by
    intro row hg
    simpa using hg.2
  unfold get_chart_data
  dsimp only
  rw [catVals_eval asset _ aRow haR]
  dsimp only [Bind.bind, Option.bind]
  rw [catVals_eval liability _ lRow hlR]
  dsimp only [Bind.bind, Option.bind]
  rw [catVals_eval equity _ eRow heR]
  dsimp only [Bind.bind, Option.bind]
  rw [catVals_eval income _ iRow hiR]
  dsimp only [Bind.bind, Option.bind]
  rw [catVals_eval expense _ xRow hxR]
  dsimp only [Bind.bind, Option.bind]
  rw [datasetIf _ _ _ (fun hg => by simpa using hg.2)]
  rw [datasetIf _ _ _ (fun hg => by simpa using hg.2)]
  rw [datasetIf _ _ _ (fun hg => by simpa using hg.2)]
  rw [datasetIf _ _ _ (fun hg => by simpa using hg.2)]
  rw [datasetIf _ _ _ (fun hg => by simpa using hg.2)]

/-- Three columns (one beyond index 2) for the C8 amended witness. -/
def c8Cols3 : List Column :=
  c8Cols ++ [⟨some ( "p".data), some ( "P 2024".data), some sCurrencyT,
    some sCurrencyOpt, some 150⟩]

/-- Witness for the amended C8: a non-empty asset category with a column
beyond index 2 yields exactly the Assets dataset. -/
theorem c8_get_chart_data_amended_witness :
    get_chart_data c8Filters c8Cols3 c7Asset none none none none ( "USD".data) =
      some ⟨(c8Cols3.drop 2).map (fun c => c.label),
            (if truthyL c7Asset = true ∧ c8Cols3.drop 2 ≠ [] then
              [⟨sAssets, (c8Cols3.drop 2).map (fun c => c.fieldname.bind (rowGet c7ARow))⟩]
             else []) ++
            (if truthyL (none : Option (List Row)) = true ∧ c8Cols3.drop 2 ≠ [] then
              [⟨sLiabilities,
                (c8Cols3.drop 2).map (fun c => c.fieldname.bind (rowGet ([] : Row)))⟩]
             else []) ++
            (if truthyL (none : Option (List Row)) = true ∧ c8Cols3.drop 2 ≠ [] then
              [⟨sEquityName,
                (c8Cols3.drop 2).map (fun c => c.fieldname.bind (rowGet ([] : Row)))⟩]
             else []) ++
            (if truthyL (none : Option (List Row)) = true ∧ c8Cols3.drop 2 ≠ [] then
              [⟨sIncomeName,
                (c8Cols3.drop 2).map (fun c => c.fieldname.bind (rowGet ([] : Row)))⟩]
             else []) ++
            (if truthyL (none : Option (List Row)) = true ∧ c8Cols3.drop 2 ≠ [] then
              [⟨sExpenseName,
                (c8Cols3.drop 2).map (fun c => c.fieldname.bind (rowGet ([] : Row)))⟩]
             else []),
            (if c8Filters.accumulated_values then sLine else sBar),
            sCurrencyT, sCurrencyOpt, ( "USD".data)⟩ :=
  c8_get_chart_data_amended c8Filters c8Cols3 c7Asset none none none none
    ( "USD".data) c7ARow [] [] [] []
    (by decide) (by decide) (by decide) (by decide) (by decide)

/-! ## Claim C5 -/

/-- C5's wording for the balance `b`: the last asset row's
`opening_balance` minus the last liability, equity, income and expense
rows' `opening_balance` (each term present only when the category's list
is non-empty, missing keys treated as `0`, every conversion and the final
result rounded at the configured float precision). -/
def c5Balance (asset liability equity income expense : Option (List Row))
    (env : Env) : Rat :=
  pyRound (effPrec env)
    ((if truthyL asset then lastOpeningBalance asset (effPrec env) else 0) -
     (if truthyL liability then lastOpeningBalance liability (effPrec env) else 0) -
     (if truthyL equity then lastOpeningBalance equity (effPrec env) else 0) -
     (if truthyL income then lastOpeningBalance income (effPrec env) else 0) -
     (if truthyL expense then lastOpeningBalance expense (effPrec env) else 0))

theorem opening_balance_value_eq_c5Balance
    (asset liability equity income expense : Option (List Row)) (env : Env) :
    opening_balance_value asset liability equity income expense env =
      c5Balance asset liability equity income expense env := by
  unfold opening_balance_value c5Balance
  dsimp only
  split_ifs <;> (congr 1 <;> ring)

/-- Decomposition of a successful `execute` run into its pieces. -/
theorem execute_parts (period_list : List Period)
    (asset liability equity income expense : Option (List Row))
    (columns0 : List Column) (filters : Filters) (env : Env)
    (cf : List Period → List Period) (res : ExecResult)
    (hexec : execute period_list asset liability equity income expense columns0
      filters env cf = some res) :
    get_difference_columns columns0 filters = some res.columns ∧
    res.data = get_difference_data res.columns
      (executeData1 period_list asset liability equity income expense filters env) ∧
    res.message = (check_opening_balance asset liability equity income expense env).1 := by
  unfold execute at hexec
  cases hh : period_list.head? with
  | none => rw [hh] at hexec; cases hexec
  | some p0 =>
      rw [hh] at hexec
      dsimp only [Bind.bind, Option.bind] at hexec
      cases hcols : get_difference_columns columns0 filters with
      | none => rw [hcols] at hexec; cases hexec
      | some cols =>
          rw [hcols] at hexec
          dsimp only at hexec
          cases hchart : get_chart_data filters cols asset liability equity income expense
              (executeCurrency filters env) with
          | none => rw [hchart] at hexec; cases hexec
          | some chart =>
              rw [hchart] at hexec
              dsimp only at hexec
              cases hrs : get_report_summary period_list asset liability equity income
                  expense [] (executeCurrency filters env) filters cf with
              | none => rw [hrs] at hexec; cases hexec
              | some rs =>
                  rw [hrs] at hexec
                  dsimp only at hexec
                  injection hexec with hres
                  subst hres
                  exact ⟨rfl, rfl, rfl⟩

theorem getLastD_append_singleton {α : Type} (l : List α) (x : α) :
    ∀ d, (l ++ [x]).getLastD d = x := by
  induction l with
  | nil => intro d; rfl
  | cons a rest ih =>
      intro d
      rw [List.cons_append, List.getLastD_cons]
      exact ih a

/-- Every key written by the period-key loop of the unclosed row holds the
balance. -/
theorem foldSet_const_mem (v : PyVal) :
    ∀ (pl : List Period) (base : Row) (p : Period),
      (p ∈ pl ∨ rowGet base p.key = some v) →
      rowGet (pl.foldl (fun r q => rowSet r q.key v) base) p.key = some v := by
  intro pl
  induction pl with
  | nil =>
      intro base p h
      rcases h with h | h
      · cases h
      · exact h
  | cons q qs ih =>
      intro base p h
      rw [List.foldl_cons]
      apply ih
      rcases h with h | h
      · rcases List.mem_cons.mp h with h0 | h0
        · right
          rw [h0]
          exact rowGet_rowSet_self _ _ _
        · left; exact h0
      · right
        by_cases hk : p.key = q.key
        · rw [hk]
          exact rowGet_rowSet_self _ _ _
        · rw [rowGet_rowSet_ne _ _ _ _ hk]
          exact h

theorem unclosedRow_total (period_list : List Period) (currency : Str) (ob : Rat) :
    rowGet (unclosedRow period_list currency ob) sTotal = some (PyVal.num ob) :=
  rowGet_rowSet_self _ _ _

theorem unclosedRow_period_key (period_list : List Period) (currency : Str) (ob : Rat)
    (p : Period) (hp : p ∈ period_list) :
    rowGet (unclosedRow period_list currency ob) p.key = some (PyVal.num ob) := by
  unfold unclosedRow
  by_cases hk : p.key = sTotal
  · rw [hk]
    exact rowGet_rowSet_self _ _ _
  · rw [rowGet_rowSet_ne _ _ _ _ hk]
    exact foldSet_const_mem _ period_list _ p (Or.inl hp)

/-- C5: `check_opening_balance` computes the balance `b` of the claim's
formula — the last asset row's `opening_balance` minus the last
liability, equity, income and expense rows' (each term only when that
category is non-empty, missing keys as `0`, rounded at the configured
float precision) — and returns the message
`"Previous Financial Year is not closed"` together with `b` exactly when
`b` is nonzero, `(None, None)` otherwise; and on every successful
`execute` run the data list carries exactly one extra
unclosed-fiscal-years row exactly when `b` rounded to two decimals is
nonzero, that row holding `b` at every period key (that is not itself a
difference/percentage fieldname) and at `"total"`. -/
theorem c5_opening_balance (period_list : List Period)
    (asset liability equity income expense : Option (List Row))
    (columns0 : List Column) (filters : Filters) (env : Env)
    (cf : List Period → List Period) (res : ExecResult)
    (hexec : execute period_list asset liability equity income expense columns0
      filters env cf = some res) :
    (check_opening_balance asset liability equity income expense env =
      (if c5Balance asset liability equity income expense env ≠ 0 then
        (some sNotClosed, some (c5Balance asset liability equity income expense env))
       else (none, none))) ∧
    (pyRound 2 (c5Balance asset liability equity income expense env) ≠ 0 →
      res.data.length =
        (executeData0 asset liability equity income expense).length + 1 ∧
      (∀ p ∈ period_list, ¬ sDiffWith <:+: p.key → ¬ sPercentWith <:+: p.key →
        rowGet (res.data.getLastD []) p.key =
          some (PyVal.num (c5Balance asset liability equity income expense env))) ∧
      rowGet (res.data.getLastD []) sTotal =
        some (PyVal.num (c5Balance asset liability equity income expense env))) ∧
    (pyRound 2 (c5Balance asset liability equity income expense env) = 0 →
      res.data.length = (executeData0 asset liability equity income expense).length) := by
  obtain ⟨hcols, hdata, hmsg⟩ := execute_parts _ _ _ _ _ _ _ _ _ _ _ hexec
  set B := c5Balance asset liability equity income expense env with hBdef
  have hcheck : check_opening_balance asset liability equity income expense env =
      (if B ≠ 0 then (some sNotClosed, some B) else (none, none)) := by
    unfold check_opening_balance
    rw [opening_balance_value_eq_c5Balance]
  have hsnd : (check_opening_balance asset liability equity income expense env).2 =
      (if B ≠ 0 then some B else none) := by
    rw [hcheck]
    by_cases hB : B ≠ 0
    · rw [if_pos hB, if_pos hB]
    · rw [if_neg hB, if_neg hB]
  refine ⟨hcheck, fun hround => ?_, fun hround0 => ?_⟩
  · have hB : B ≠ 0 := by
      intro h0
      rw [h0, pyRound_zero] at hround
      exact hround rfl
    have hpart : executeUnclosedPart period_list asset liability equity income expense
        filters env = [unclosedRow period_list (executeCurrency filters env) B] := by
      unfold executeUnclosedPart
      rw [hsnd, if_pos hB]
      dsimp only
      rw [if_pos ⟨hB, hround⟩]
    have hd1 : executeData1 period_list asset liability equity income expense filters env =
        executeData0 asset liability equity income expense ++
          [unclosedRow period_list (executeCurrency filters env) B] := by
      unfold executeData1
      rw [hpart]
    have hlast : res.data.getLastD [] =
        transformRow res.columns
          (unclosedRow period_list (executeCurrency filters env) B) := by
      rw [hdata, hd1, get_difference_data_eq_map, List.map_append]
      dsimp only [List.map]
      exact getLastD_append_singleton _ _ _
    refine ⟨?_, ?_, ?_⟩
    · rw [hdata, get_difference_data_length, hd1, List.length_append]
      rfl
    · intro p hp hnd hnp
      rw [hlast, transformRow_frame (fun hm => hnd (mem_diff_w_columns hm).2)
          (fun hm => hnp (mem_percent_diff_columns hm).2.2)]
      exact unclosedRow_period_key _ _ _ p hp
    · rw [hlast, transformRow_frame
          (fun hm => absurd (mem_diff_w_columns hm).2 (by decide))
          (fun hm => absurd (mem_percent_diff_columns hm).2.2 (by decide))]
      exact unclosedRow_total _ _ _
  · have hpart : executeUnclosedPart period_list asset liability equity income expense
        filters env = [] := by
      unfold executeUnclosedPart
      rw [hsnd]
      by_cases hB : B ≠ 0
      · rw [if_pos hB]
        dsimp only
        rw [if_neg (fun hand => hand.2 hround0)]
      · rw [if_neg hB]
    rw [hdata, get_difference_data_length]
    unfold executeData1
    rw [hpart, List.append_nil]

/-! ## Claim C6 -/

/-- C6: the data list returned by `execute` is the transformed Asset
rows, then the Liability, Equity, Income and Expense rows (a `None` or
empty category contributing nothing), optionally followed by the single
unclosed-fiscal-years row; every row is kept, in order, each transformed
in place by `get_difference_data` under the expanded column list. -/
theorem c6_execute_data_order (period_list : List Period)
    (asset liability equity income expense : Option (List Row))
    (columns0 : List Column) (filters : Filters) (env : Env)
    (cf : List Period → List Period) (res : ExecResult) (cols : List Column)
    (hexec : execute period_list asset liability equity income expense columns0
      filters env cf = some res)
    (hcols : get_difference_columns columns0 filters = some cols) :
    res.columns = cols ∧
    res.data =
      (orEmpty asset).map (transformRow cols) ++
      (orEmpty liability).map (transformRow cols) ++
      (orEmpty equity).map (transformRow cols) ++
      (orEmpty income).map (transformRow cols) ++
      (orEmpty expense).map (transformRow cols) ++
      (executeUnclosedPart period_list asset liability equity income expense
        filters env).map (transformRow cols) := by
  obtain ⟨hc2, hdata, -⟩ := execute_parts _ _ _ _ _ _ _ _ _ _ _ hexec
  have hrc : res.columns = cols := by
    rw [hcols] at hc2
    injection hc2 with h
    exact h.symm
  refine ⟨hrc, ?_⟩
  rw [hdata, hrc, get_difference_data_eq_map]
  unfold executeData1 executeData0
  simp [List.map_append]

/-! ## Claim C1 -/

/-- C1 (amended): whenever `execute` returns normally, its return
statement yields a 6-component tuple — the contract's `columns`, `data`,
`message`, `chart` and `report_summary` in positions 0 to 4, followed by
a sixth `primitive_summary` value — and never a 5-tuple. -/
theorem c1_execute_six_components (period_list : List Period)
    (asset liability equity income expense : Option (List Row))
    (columns0 : List Column) (filters : Filters) (env : Env)
    (cf : List Period → List Period) (res : ExecResult)
    (hexec : execute period_list asset liability equity income expense columns0
      filters env cf = some res) :
    executeReturnSeq period_list asset liability equity income expense columns0
      filters env cf =
      some [ExecComponent.columns res.columns, ExecComponent.data res.data,
        ExecComponent.message res.message, ExecComponent.chart res.chart,
        ExecComponent.reportSummary res.report_summary,
        ExecComponent.primitiveSummary res.primitive_summary] ∧
    (executeReturnSeq period_list asset liability equity income expense columns0
      filters env cf).map List.length = some 6 := by
  have h1 : executeReturnSeq period_list asset liability equity income expense columns0
      filters env cf =
      some [ExecComponent.columns res.columns, ExecComponent.data res.data,
        ExecComponent.message res.message, ExecComponent.chart res.chart,
        ExecComponent.reportSummary res.report_summary,
        ExecComponent.primitiveSummary res.primitive_summary] := by
    unfold executeReturnSeq
    rw [hexec]
    rfl
  exact ⟨h1, by rw [h1]; rfl⟩

/-! ## A fully evaluated `execute` run on a minimal input -/

def c5Env : Env := ⟨0, "USD".data⟩

def trivChart : Chart := ⟨[], [], sBar, sCurrencyT, sCurrencyOpt, ( "USD".data)⟩

def trivRes : ExecResult :=
  ⟨[], get_difference_data []
      (executeData1 [c7Period] none none none none none c7Filters c5Env),
    none, trivChart,
    [⟨0, sTotalAsset, sCurrencyT, ( "USD".data)⟩,
     ⟨0, sTotalLiability, sCurrencyT, ( "USD".data)⟩,
     ⟨0, sTotalEquity, sCurrencyT, ( "USD".data)⟩,
     ⟨0, sTotalIncome, sCurrencyT, ( "USD".data)⟩,
     ⟨0, sTotalExpense, sCurrencyT, ( "USD".data)⟩],
    0 - 0 + 0⟩

theorem check_opening_balance_trivial :
    check_opening_balance none none none none none c5Env = (none, none) := by
  have hobv : opening_balance_value none none none none none c5Env = 0 := by
    unfold opening_balance_value
    dsimp only
    rw [if_neg (by decide), if_neg (by decide), if_neg (by decide), if_neg (by decide),
        if_neg (by decide)]
    exact pyRound_zero _
  unfold check_opening_balance
  rw [hobv]
  rw [if_neg (by simp)]

theorem execTrivialEval :
    execute [c7Period] none none none none none [] c7Filters c5Env (fun l => l) =
      some trivRes := by
  unfold execute
  dsimp only [List.head?, Bind.bind, Option.bind]
  rw [show get_difference_columns [] c7Filters = some [] from rfl]
  dsimp only
  rw [show get_chart_data c7Filters [] none none none none none
      (executeCurrency c7Filters c5Env) = some trivChart from by decide]
  dsimp only
  rw [show get_report_summary [c7Period] none none none none none []
      (executeCurrency c7Filters c5Env) c7Filters (fun l => l) =
      some ([⟨0, sTotalAsset, sCurrencyT, ( "USD".data)⟩,
             ⟨0, sTotalLiability, sCurrencyT, ( "USD".data)⟩,
             ⟨0, sTotalEquity, sCurrencyT, ( "USD".data)⟩,
             ⟨0, sTotalIncome, sCurrencyT, ( "USD".data)⟩,
             ⟨0, sTotalExpense, sCurrencyT, ( "USD".data)⟩], 0 - 0 + 0) from rfl]
  dsimp only
  rw [check_opening_balance_trivial]
  rfl

/-- C1 counterexample: at a concrete input (one period, no category rows,
no columns) `execute` succeeds and its return statement carries six
components, not the contract's five. -/
theorem c1_counterexample :
    (executeReturnSeq [c7Period] none none none none none [] c7Filters c5Env
      (fun l => l)).map List.length = some 6 ∧ (6 : Nat) ≠ 5 := by
  constructor
  · unfold executeReturnSeq
    rw [execTrivialEval]
    rfl
  · decide

/-- Witness for the amended C1 at the same concrete input. -/
theorem c1_execute_six_components_witness :
    executeReturnSeq [c7Period] none none none none none [] c7Filters c5Env
      (fun l => l) =
      some [ExecComponent.columns trivRes.columns, ExecComponent.data trivRes.data,
        ExecComponent.message trivRes.message, ExecComponent.chart trivRes.chart,
        ExecComponent.reportSummary trivRes.report_summary,
        ExecComponent.primitiveSummary trivRes.primitive_summary] ∧
    (executeReturnSeq [c7Period] none none none none none [] c7Filters c5Env
      (fun l => l)).map List.length = some 6 :=
  c1_execute_six_components _ _ _ _ _ _ _ _ _ _ trivRes execTrivialEval

/-- Witness for C6 at the same concrete input. -/
theorem c6_execute_data_order_witness :
    trivRes.columns = ([] : List Column) ∧
    trivRes.data =
      (orEmpty none).map (transformRow []) ++
      (orEmpty none).map (transformRow []) ++
      (orEmpty none).map (transformRow []) ++
      (orEmpty none).map (transformRow []) ++
      (orEmpty none).map (transformRow []) ++
      (executeUnclosedPart [c7Period] none none none none none c7Filters c5Env).map
        (transformRow []) :=
  c6_execute_data_order [c7Period] none none none none none [] c7Filters c5Env
    (fun l => l) trivRes [] execTrivialEval rfl

/-! ## A fully evaluated `execute` run with an unclosed balance -/

def c5ARow : Row := [( "p".data, PyVal.num 2)]
def c5ALast : Row := [(sOpeningBalance, PyVal.num 5)]
def c5Asset : Option (List Row) := some [c5ARow, c5ALast]

theorem c5flt : flt (PyVal.num 5) 2 = 5 := by
  unfold flt toFloatOrZero
  rw [pyRound_eq_of_intCast 2 5 500 (by norm_num)]
  norm_num

theorem c5lastOB : lastOpeningBalance c5Asset (effPrec c5Env) = 5 := by
  unfold lastOpeningBalance
  rw [show (rowGet ((orEmpty c5Asset).getLastD []) sOpeningBalance).getD (PyVal.num 0)
      = PyVal.num 5 from by decide]
  rw [show effPrec c5Env = 2 from by decide]
  exact c5flt

theorem c5obv : opening_balance_value c5Asset none none none none c5Env = 5 := by
  unfold opening_balance_value
  dsimp only
  rw [if_neg (by decide), if_neg (by decide), if_neg (by decide), if_neg (by decide),
      if_pos (by decide)]
  rw [c5lastOB]
  rw [show effPrec c5Env = 2 from by decide]
  rw [pyRound_eq_of_intCast 2 5 500 (by norm_num)]
  norm_num

theorem c5check : check_opening_balance c5Asset none none none none c5Env =
    (some sNotClosed, some 5) := by
  unfold check_opening_balance
  rw [c5obv]
  rw [if_pos (by norm_num)]

theorem c5round5 : pyRound 2 (5 : Rat) = 5 := by
  rw [pyRound_eq_of_intCast 2 5 500 (by norm_num)]
  norm_num

def c5Res : ExecResult :=
  ⟨[], get_difference_data []
      (executeData1 [c7Period] c5Asset none none none none c7Filters c5Env),
    some sNotClosed, trivChart,
    [⟨0 + 2, sTotalAsset, sCurrencyT, ( "USD".data)⟩,
     ⟨0, sTotalLiability, sCurrencyT, ( "USD".data)⟩,
     ⟨0, sTotalEquity, sCurrencyT, ( "USD".data)⟩,
     ⟨0, sTotalIncome, sCurrencyT, ( "USD".data)⟩,
     ⟨0, sTotalExpense, sCurrencyT, ( "USD".data)⟩],
    0 + 2 - 0 + 0⟩

theorem execC5Eval :
    execute [c7Period] c5Asset none none none none [] c7Filters c5Env (fun l => l) =
      some c5Res := by
  unfold execute
  dsimp only [List.head?, Bind.bind, Option.bind]
  rw [show get_difference_columns [] c7Filters = some [] from rfl]
  dsimp only
  rw [show get_chart_data c7Filters [] c5Asset none none none none
      (executeCurrency c7Filters c5Env) = some trivChart from by decide]
  dsimp only
  rw [show get_report_summary [c7Period] c5Asset none none none none []
      (executeCurrency c7Filters c5Env) c7Filters (fun l => l) =
      some ([⟨0 + 2, sTotalAsset, sCurrencyT, ( "USD".data)⟩,
             ⟨0, sTotalLiability, sCurrencyT, ( "USD".data)⟩,
             ⟨0, sTotalEquity, sCurrencyT, ( "USD".data)⟩,
             ⟨0, sTotalIncome, sCurrencyT, ( "USD".data)⟩,
             ⟨0, sTotalExpense, sCurrencyT, ( "USD".data)⟩], 0 + 2 - 0 + 0) from rfl]
  dsimp only
  rw [show (check_opening_balance c5Asset none none none none c5Env).1 = some sNotClosed
      from by rw [c5check]]
  rfl

/-- Witness for C5 at a concrete input whose unclosed balance is `5`:
the message pair is returned, and the transformed data ends in one extra
row holding `5` at the period key and at `"total"`. -/
theorem c5_opening_balance_witness :
    check_opening_balance c5Asset none none none none c5Env =
      (if c5Balance c5Asset none none none none c5Env ≠ 0 then
        (some sNotClosed, some (c5Balance c5Asset none none none none c5Env))
       else (none, none)) ∧
    c5Balance c5Asset none none none none c5Env = 5 ∧
    c5Res.data.length = (executeData0 c5Asset none none none none).length + 1 ∧
    rowGet (c5Res.data.getLastD []) ( "p".data) =
      some (PyVal.num (c5Balance c5Asset none none none none c5Env)) ∧
    rowGet (c5Res.data.getLastD []) sTotal =
      some (PyVal.num (c5Balance c5Asset none none none none c5Env)) := by
  have hB : c5Balance c5Asset none none none none c5Env = 5 := by
    rw [← opening_balance_value_eq_c5Balance]
    exact c5obv
  have h := c5_opening_balance [c7Period] c5Asset none none none none [] c7Filters
    c5Env (fun l => l) c5Res execC5Eval
  have hround : pyRound 2 (c5Balance c5Asset none none none none c5Env) ≠ 0 := by
    rw [hB, c5round5]
    norm_num
  obtain ⟨ha, hb, -⟩ := h
  obtain ⟨hlen, hpk, htot⟩ := hb hround
  exact ⟨ha, hB, hlen, hpk c7Period (List.mem_cons_self _ _) (by decide) (by decide), htot⟩

end SochaPnl
